import Mathlib

/-!
Verification development for the Resilient Provider Invocation Layer of the
multi-LLM debater script (`scripts/multi_llm_debater.py`).

Modelling conventions:
* Python strings are Lean `String`s; core scanning functions work on
  `List Char` (via `String.data`).  Whitespace sets are modelled at the
  ASCII level (space, tab, newline, carriage return, vertical tab, form
  feed), which matches CPython on all inputs the claims exercise.
* Python floats are modelled as rationals; the retry/timeout constants
  (1.0, 2.0, 30.0, 90.0, 180.0) and their products are exactly
  representable in binary floating point, so the models agree with the
  code on every value the claims mention.
* Python exceptions are values `PyExc` carrying the class name
  (`type(e).__name__`) and the message (`str(e)`); a function that can
  raise returns `Except`.
* Wall-clock data (`execution_time`, latencies, timestamps) is outside the
  embedding and is omitted from the modelled records.
-/

namespace Debater

/-- The backtick character, written by code point to keep source plain. -/
def btick : Char := Char.ofNat 96

/-- Opening curly brace character. -/
def lbrace : Char := Char.ofNat 123

/-- Closing curly brace character. -/
def rbrace : Char := Char.ofNat 125

/-- JSON whitespace accepted between tokens by `json.loads`. -/
def isJsonWs (c : Char) : Bool :=
  c = ' ' || c = '\t' || c = '\n' || c = '\r'

/-- ASCII model of Python `str.strip()` / regex `\s` whitespace. -/
def isPyWs (c : Char) : Bool :=
  c = ' ' || c = '\t' || c = '\n' || c = '\r' || c = '\x0b' || c = '\x0c'

/-- ASCII decimal digit test. -/
def isDigitC (c : Char) : Bool := '0' ≤ c && c ≤ '9'

/-- ASCII hexadecimal digit test. -/
def isHexC (c : Char) : Bool :=
  isDigitC c || ('a' ≤ c && c ≤ 'f') || ('A' ≤ c && c ≤ 'F')

/-- Regex `\w` word character (ASCII model). -/
def isWordC (c : Char) : Bool :=
  isDigitC c || ('a' ≤ c && c ≤ 'z') || ('A' ≤ c && c ≤ 'Z') || c = '_'

/-- ASCII lowering on code points: A-Z map to a-z, others unchanged. -/
def lowerNat (n : Nat) : Nat := if 65 ≤ n ∧ n ≤ 90 then n + 32 else n

/-- ASCII model of Python `str.lower` on a single character. -/
def lowerC (c : Char) : Char := Char.ofNat (lowerNat c.toNat)

/-- Lowercase every character of a character list. -/
def lowerL (cs : List Char) : List Char := cs.map lowerC

/-- Lowercase a string (model of Python `str.lower`). -/
def pyLower (s : String) : String := String.mk (lowerL s.data)

/-- Does `pat` occur as a prefix of `cs`?  (List-level helper.) -/
def isPrefixL : List Char → List Char → Bool
  | [], _ => true
  | _ :: _, [] => false
  | p :: ps, c :: cs => p = c && isPrefixL ps cs

/-- Model of Python `sub in s`: substring containment. -/
def containsL : List Char → List Char → Bool
  | hay, pat =>
    isPrefixL pat hay ||
      match hay with
      | [] => false
      | _ :: t => containsL t pat

/-- First index at which `pat` occurs in `hay`, if any. -/
def findIdx? : List Char → List Char → Option Nat
  | hay, pat =>
    if isPrefixL pat hay then some 0
    else
      match hay with
      | [] => none
      | _ :: t => (findIdx? t pat).map (· + 1)

/-- Model of Python `s.find(pat, start)`: lowest index `≥ start`, else -1. -/
def pyFindFrom (hay pat : List Char) (start : Nat) : Int :=
  match findIdx? (hay.drop start) pat with
  | some i => (start + i : Int)
  | none => -1

/-- Model of Python `s.strip()` on character lists. -/
def pyStripL (cs : List Char) : List Char :=
  ((cs.dropWhile isPyWs).reverse.dropWhile isPyWs).reverse

/-- Model of Python `s.strip()`. -/
def pyStrip (s : String) : String := String.mk (pyStripL s.data)

/-- Model of Python slicing `s[a:b]` for `0 ≤ a ≤ b` within bounds. -/
def pySlice (s : String) (a b : Nat) : String :=
  String.mk ((s.data.drop a).take (b - a))

/-- Render the phase-timeout rationals the way Python prints these floats
(`90.0`, `180.0`, `15.0`): all values used have denominator 1. -/
def pyFloatStr (q : ℚ) : String :=
  if q.den = 1 then toString q.num ++ ".0" else toString q

example : pyStrip "  ab\n" = "ab" := by decide
example : containsL "hello".data "ell".data = true := by decide
example : containsL "hello".data "xy".data = false := by decide
example : pyFindFrom "abcabc".data "bc".data 2 = 4 := by decide
example : pySlice "abcdef" 2 4 = "cd" := by decide
example : pyLower "Rate LIMIT" = "rate limit" := by decide
example : pyFloatStr 90 = "90.0" := by decide

/-! ## Error classification (`FALLBACK_ERROR_PATTERNS`, `HARD_FAILURE_PATTERNS`,
`classify_error`, `should_fallback`) -/

/-- `FALLBACK_ERROR_PATTERNS`: ordered retryable/fallback-eligible pattern
groups (Python dicts preserve insertion order). -/
def FALLBACK_ERROR_PATTERNS : List (String × List String) :=
  [("rate_limit", ["rate limit", "429", "too many requests", "rate-limit"]),
   ("quota", ["quota exceeded", "quota", "billing", "insufficient credits"]),
   ("timeout", ["timeout", "timed out", "deadline exceeded"]),
   ("service_unavailable", ["503", "service unavailable", "temporarily unavailable"]),
   ("overloaded", ["overloaded", "capacity", "busy", "try again later"])]

/-- `HARD_FAILURE_PATTERNS`: ordered fatal pattern groups. -/
def HARD_FAILURE_PATTERNS : List (String × List String) :=
  [("auth", ["401", "403", "api key", "authentication", "unauthorized", "invalid key"]),
   ("invalid_input", ["invalid", "malformed", "bad request", "400"]),
   ("content_policy", ["content policy", "safety", "blocked", "harmful", "refused"])]

/-- One Python `for error_type, patterns in D.items()` loop of
`classify_error`: return the first group with a matching substring. -/
def matchGroup (lower : List Char) : List (String × List String) → Option String
  | [] => none
  | (k, ps) :: rest =>
    if ps.any (fun p => containsL lower p.data) then some k else matchGroup lower rest

/-- `classify_error`: lowercase the message, scan the fallback groups, then
the hard-failure groups, defaulting to "unknown". -/
def classify_error (msg : String) : String :=
  match matchGroup (lowerL msg.data) FALLBACK_ERROR_PATTERNS with
  | some k => k
  | none =>
    match matchGroup (lowerL msg.data) HARD_FAILURE_PATTERNS with
    | some k => k
    | none => "unknown"

/-- The error kinds whose messages are fallback-eligible (the keys of
`FALLBACK_ERROR_PATTERNS`, as tested by Python `classified in
FALLBACK_ERROR_PATTERNS`). -/
def fallbackKinds : List String := FALLBACK_ERROR_PATTERNS.map Prod.fst

/-- The fields of a result dict that `should_fallback` consults.
`error = none` models both an absent key and an explicit `None`
(the code normalises both to `""`); `error_type = none` models an
absent key (normalised to `""`). -/
structure ResultView where
  success : Bool
  error : Option String
  error_type : Option String
deriving DecidableEq

/-- `should_fallback`: Success never falls back; an explicit
`error_type == "timeout"` always does; otherwise the classified message
kind must be a fallback-eligible key. -/
def should_fallback (r : ResultView) : Bool :=
  if r.success then false
  else if r.error_type.getD "" = "timeout" then true
  else fallbackKinds.contains (classify_error (r.error.getD ""))

/-- Specification-level classifier, following spec 4.1 word for word:
case-insensitive substring matching against the ordered pattern groups,
retryable/fallback-eligible groups before fatal groups, first matching
group wins, `unknown` when nothing matches. -/
def classify_spec (msg : String) : String :=
  ((((FALLBACK_ERROR_PATTERNS ++ HARD_FAILURE_PATTERNS).find?
      (fun g => g.2.any (fun p => containsL (lowerL msg.data) p.data))).map
    Prod.fst).getD "unknown")

example : classify_error "HTTP 429: Too Many Requests" = "rate_limit" := by decide
example : classify_error "401 Unauthorized" = "auth" := by decide
example : classify_error "401 rate limit" = "rate_limit" := by decide
example : classify_error "weird" = "unknown" := by decide
example : should_fallback ⟨false, some "503 service unavailable", none⟩ = true := by decide
example : should_fallback ⟨false, some "401 unauthorized", some "timeout"⟩ = true := by decide
example : should_fallback ⟨true, some "rate limit", none⟩ = false := by decide
example : should_fallback ⟨false, some "401 unauthorized", none⟩ = false := by decide

/-! ## Model of `json.loads`

Parsed JSON documents.  Numbers keep their source lexeme (Python would
convert to `int`/`float`; the lexeme determines that value, and the claims
only ever compare parses of identical lexemes).  Object member order and
duplicates are kept as parsed. -/

inductive Json where
  | null
  | bool (b : Bool)
  | num (lexeme : String)
  | str (s : String)
  | arr (elems : List Json)
  | obj (members : List (String × Json))

/-- Skip JSON inter-token whitespace. -/
def skipWs (cs : List Char) : List Char := cs.dropWhile isJsonWs

/-- Numeric value of a hex digit. -/
def hexVal (c : Char) : Nat :=
  if isDigitC c then c.toNat - 48
  else if 'a' ≤ c && c ≤ 'f' then c.toNat - 87
  else c.toNat - 55

/-- Body of a JSON string after the opening quote: returns the decoded
characters and the remainder after the closing quote.  Control characters
below 0x20 are rejected (strict mode); `\uXXXX` decodes a single escape
(surrogate pairs are outside the claims' inputs). -/
def parseStringBody : List Char → List Char → Option (List Char × List Char)
  | [], _ => none
  | c :: rest, acc =>
    if c = '\"' then some (acc.reverse, rest)
    else if c = '\\' then
      match rest with
      | [] => none
      | e :: rest2 =>
        if e = '\"' then parseStringBody rest2 ('\"' :: acc)
        else if e = '\\' then parseStringBody rest2 ('\\' :: acc)
        else if e = '/' then parseStringBody rest2 ('/' :: acc)
        else if e = 'b' then parseStringBody rest2 ('\x08' :: acc)
        else if e = 'f' then parseStringBody rest2 ('\x0c' :: acc)
        else if e = 'n' then parseStringBody rest2 ('\n' :: acc)
        else if e = 'r' then parseStringBody rest2 ('\r' :: acc)
        else if e = 't' then parseStringBody rest2 ('\t' :: acc)
        else if e = 'u' then
          match rest2 with
          | h1 :: h2 :: h3 :: h4 :: rest3 =>
            if isHexC h1 && isHexC h2 && isHexC h3 && isHexC h4 then
              parseStringBody rest3
                (Char.ofNat (hexVal h1 * 4096 + hexVal h2 * 256 + hexVal h3 * 16 + hexVal h4) :: acc)
            else none
          | _ => none
        else none
    else if c.toNat < 32 then none
    else parseStringBody rest (c :: acc)

/-- A non-empty maximal digit run (`\d+` at the current position). -/
def lexDigits (cs : List Char) : Option (List Char × List Char) :=
  if (cs.takeWhile isDigitC).isEmpty then none
  else some (cs.takeWhile isDigitC, cs.dropWhile isDigitC)

/-- The integer part `0|[1-9]\d*`: a lone `0`, or a maximal digit run not
starting with `0`. -/
def lexInt : List Char → Option (List Char × List Char)
  | [] => none
  | d :: tl =>
    if isDigitC d then
      if d = '0' then some (['0'], tl) else lexDigits (d :: tl)
    else none

/-- The optional fraction `(\.\d+)?`; consumed only when a digit follows
the dot. -/
def lexFrac (cs : List Char) : List Char × List Char :=
  match cs with
  | '.' :: r =>
    match lexDigits r with
    | some (fd, r2) => ('.' :: fd, r2)
    | none => ([], cs)
  | _ => ([], cs)

/-- The optional sign of an exponent (`[-+]?`). -/
def lexSign : List Char → List Char × List Char
  | c2 :: rr => if c2 = '+' ∨ c2 = '-' then ([c2], rr) else ([], c2 :: rr)
  | [] => ([], [])

/-- The optional exponent `([eE][-+]?\d+)?`; consumed only when digits
follow. -/
def lexExp : List Char → List Char × List Char
  | e :: r =>
    if e = 'e' ∨ e = 'E' then
      match lexDigits (lexSign r).2 with
      | some (ed, r2) => (e :: ((lexSign r).1 ++ ed), r2)
      | none => ([], e :: r)
    else ([], e :: r)
  | [] => ([], [])

/-- Integer part, then optional fraction and exponent, prefixed by an
already-consumed sign. -/
def lexNumBody (sgn tl : List Char) : Option (List Char × List Char) :=
  match lexInt tl with
  | none => none
  | some (ip, r1) =>
    some (sgn ++ ip ++ (lexFrac r1).1 ++ (lexExp (lexFrac r1).2).1,
      (lexExp (lexFrac r1).2).2)

/-- Longest-prefix number lexeme, mirroring the scanner regex
`(-?(?:0|[1-9]\d*))(\.\d+)?([eE][-+]?\d+)?`: returns the lexeme and the
remainder, or `none` if no integer part is present. -/
def lexNumber : List Char → Option (List Char × List Char)
  | '-' :: r => lexNumBody ['-'] r
  | cs => lexNumBody [] cs

/-- Consume an expected literal word character by character, as the scanner
does for `true`, `false`, `null`, `NaN` and the infinities. -/
def expectLit : List Char → List Char → Option (List Char)
  | [], cs => some cs
  | _ :: _, [] => none
  | l :: ls, c :: cs => if c = l then expectLit ls cs else none

mutual

/-- One JSON value, dispatching on the first character.  `fuel` bounds the
mutual recursion depth; `jsonParse` supplies enough for any input. -/
def parseValue : Nat → List Char → Option (Json × List Char)
  | 0, _ => none
  | Nat.succ fuel, cs =>
    match cs with
    | [] => none
    | c :: rest =>
      if c = lbrace then
        match skipWs rest with
        | [] => none
        | c2 :: rest2 =>
          if c2 = rbrace then some (Json.obj [], rest2)
          else (parseMembers fuel (c2 :: rest2)).map (fun p => (Json.obj p.1, p.2))
      else if c = '[' then
        match skipWs rest with
        | [] => none
        | c2 :: rest2 =>
          if c2 = ']' then some (Json.arr [], rest2)
          else (parseElems fuel (c2 :: rest2)).map (fun p => (Json.arr p.1, p.2))
      else if c = '\"' then
        (parseStringBody rest []).map (fun p => (Json.str (String.mk p.1), p.2))
      else if c = 't' then
        (expectLit ['r', 'u', 'e'] rest).map (fun r => (Json.bool true, r))
      else if c = 'f' then
        (expectLit ['a', 'l', 's', 'e'] rest).map (fun r => (Json.bool false, r))
      else if c = 'n' then
        (expectLit ['u', 'l', 'l'] rest).map (fun r => (Json.null, r))
      else if c = 'N' then
        (expectLit ['a', 'N'] rest).map (fun r => (Json.num "NaN", r))
      else if c = 'I' then
        (expectLit ['n', 'f', 'i', 'n', 'i', 't', 'y'] rest).map
          (fun r => (Json.num "Infinity", r))
      else if c = '-' then
        match expectLit ['I', 'n', 'f', 'i', 'n', 'i', 't', 'y'] rest with
        | some r => some (Json.num "-Infinity", r)
        | none => (lexNumber cs).map (fun p => (Json.num (String.mk p.1), p.2))
      else if isDigitC c then
        (lexNumber cs).map (fun p => (Json.num (String.mk p.1), p.2))
      else none

/-- Comma-separated array elements; called at the start of the first
element (whitespace already skipped), consumes through the closing `]`. -/
def parseElems : Nat → List Char → Option (List Json × List Char)
  | 0, _ => none
  | Nat.succ fuel, cs =>
    match parseValue fuel cs with
    | none => none
    | some (v, r1) =>
      match skipWs r1 with
      | [] => none
      | c2 :: r2 =>
        if c2 = ',' then (parseElems fuel (skipWs r2)).map (fun p => (v :: p.1, p.2))
        else if c2 = ']' then some ([v], r2)
        else none

/-- Comma-separated object members; called at the opening quote of the
first key (whitespace already skipped), consumes through the closing
brace. -/
def parseMembers : Nat → List Char → Option (List (String × Json) × List Char)
  | 0, _ => none
  | Nat.succ fuel, cs =>
    match cs with
    | [] => none
    | c :: rest =>
      if c = '\"' then
        match parseStringBody rest [] with
        | none => none
        | some (key, r1) =>
          match skipWs r1 with
          | [] => none
          | c2 :: r2 =>
            if c2 = ':' then
              match parseValue fuel (skipWs r2) with
              | none => none
              | some (v, r3) =>
                match skipWs r3 with
                | [] => none
                | c4 :: r4 =>
                  if c4 = ',' then
                    (parseMembers fuel (skipWs r4)).map
                      (fun p => ((String.mk key, v) :: p.1, p.2))
                  else if c4 = rbrace then some ([(String.mk key, v)], r4)
                  else none
            else none
      else none

end

/-- Strip JSON whitespace from both ends. -/
def stripJsonL (cs : List Char) : List Char :=
  ((cs.dropWhile isJsonWs).reverse.dropWhile isJsonWs).reverse

/-- Model of `json.loads`.  Surrounding whitespace is stripped up front;
this is equivalent to CPython's parse-then-require-only-trailing-whitespace
because a value parse never consumes whitespace after the value's final
token.  The fuel `2·n+2` strictly dominates the recursion depth (each two
nested calls consume at least one character). -/
def jsonParse (s : String) : Option Json :=
  let w := stripJsonL s.data
  match parseValue (2 * w.length + 2) w with
  | some (v, rest) => if rest.isEmpty then some v else none
  | none => none

example : jsonParse "null" = some Json.null := rfl
example : jsonParse " true " = some (Json.bool true) := rfl
example : jsonParse "\"a\"" = some (Json.str "a") := rfl
example : jsonParse "-12.5e2" = some (Json.num "-12.5e2") := rfl
example : jsonParse "[1, 2]" = some (Json.arr [Json.num "1", Json.num "2"]) := rfl
example : jsonParse "\x7b\"a\": 1\x7d" = some (Json.obj [("a", Json.num "1")]) := rfl
example : jsonParse "\x7b\"a\": [true, \x7b\x7d]\x7d" =
    some (Json.obj [("a", Json.arr [Json.bool true, Json.obj []])]) := rfl
example : jsonParse "" = none := rfl
example : jsonParse "01" = none := rfl
example : jsonParse "1 2" = none := rfl
example : jsonParse "\x7b\"a\": 1,\x7d" = none := rfl
example : jsonParse "\"a" = none := rfl

/-! ## Robust JSON recovery (`extract_json_block`, `fix_trailing_commas`,
`fix_unquoted_keys`, `robust_json_parse`) -/

/-- The three-backtick fence. -/
def fenceL : List Char := [btick, btick, btick]

/-- The fence immediately followed by `json`. -/
def fenceJsonL : List Char := fenceL ++ ['j', 's', 'o', 'n']

/-- Scan of `for i, char in enumerate(text[brace_start:], brace_start)` in
`extract_json_block`: depth-counted brace matching, returning the segment
through the brace that closes depth 0, if the loop ever returns. -/
def braceLoop : List Char → Int → List Char → Option (List Char)
  | [], _, _ => none
  | c :: rest, depth, acc =>
    let d : Int := if c = lbrace then depth + 1 else if c = rbrace then depth - 1 else depth
    if c = rbrace ∧ d = 0 then some ((c :: acc).reverse)
    else braceLoop rest d (c :: acc)

/-- `extract_json_block`: try a ```json fence, then any ``` fence, then the
outermost balanced brace span, else return the text unchanged.  A fence
branch whose closing fence is missing (`end ≤ start`) falls through to the
next stage, as in the Python control flow. -/
def extract_json_block (text : String) : String :=
  let cs := text.data
  let braceStage :=
    match findIdx? cs [lbrace] with
    | some i =>
      match braceLoop (cs.drop i) 0 [] with
      | some seg => String.mk seg
      | none => text
    | none => text
  let anyFenceStage :=
    if containsL cs fenceL then
      let start := (pyFindFrom cs fenceL 0).toNat + 3
      let stop := pyFindFrom cs fenceL start
      if stop > (start : Int) then pyStrip (pySlice text start stop.toNat)
      else braceStage
    else braceStage
  if containsL cs fenceJsonL then
    let start := (pyFindFrom cs fenceJsonL 0).toNat + 7
    let stop := pyFindFrom cs fenceL start
    if stop > (start : Int) then pyStrip (pySlice text start stop.toNat)
    else anyFenceStage
  else anyFenceStage

/-- One `re.sub(r',\s*X', 'X', text)` pass for a closing character `X`
(`}` or `]`): left-to-right non-overlapping replacement.  The fuel makes
the recursion structural; every step consumes at least one character, so
fuel equal to the list length is never exhausted. -/
def stripCommaPass (close : Char) : Nat → List Char → List Char
  | 0, cs => cs
  | _ + 1, [] => []
  | fuel + 1, c :: rest =>
    if c = ',' then
      match rest.dropWhile isPyWs with
      | d :: rest2 =>
        if d = close then close :: stripCommaPass close fuel rest2
        else c :: stripCommaPass close fuel rest
      | [] => c :: stripCommaPass close fuel rest
    else c :: stripCommaPass close fuel rest

/-- One full `re.sub` pass over a character list. -/
def subCommaClose (close : Char) (cs : List Char) : List Char :=
  stripCommaPass close cs.length cs

/-- `fix_trailing_commas`: remove trailing commas before `}` then `]`. -/
def fix_trailing_commas (text : String) : String :=
  String.mk (subCommaClose ']' (subCommaClose rbrace text.data))

/-- Is a character in the lookbehind class `[{,\s]` of `fix_unquoted_keys`? -/
def inKeyLookbehind (c : Char) : Bool := c = lbrace || c = ',' || isPyWs c

/-- Scanner for `re.sub(r'(?<=[{,\s])(\w+)(?=\s*:)', r'"\1"', text)`:
`prevOk` tracks whether the previous original character is in the
lookbehind class (regex lookbehind inspects the original string).  After a
replacement the scan resumes right after the word run, whose last character
is a word character, never in the class, so `prevOk` resumes false. -/
def fixKeysGo : Nat → Bool → List Char → List Char
  | 0, _, cs => cs
  | _ + 1, _, [] => []
  | fuel + 1, prevOk, c :: rest =>
    if prevOk ∧ isWordC c then
      let w := c :: rest.takeWhile isWordC
      let rest2 := rest.dropWhile isWordC
      if (rest2.dropWhile isPyWs).head? = some ':' then
        '\"' :: (w ++ '\"' :: fixKeysGo fuel false rest2)
      else c :: fixKeysGo fuel (inKeyLookbehind c) rest
    else c :: fixKeysGo fuel (inKeyLookbehind c) rest

/-- `fix_unquoted_keys`: quote bare object keys. -/
def fix_unquoted_keys (text : String) : String :=
  String.mk (fixKeysGo text.data.length false text.data)

example : fix_trailing_commas "[1, 2, ]" = "[1, 2]" := by decide
example : fix_trailing_commas "\x7b\"a\": 1,\x7d" = "\x7b\"a\": 1\x7d" := by decide
example : fix_unquoted_keys "\x7ba: 1, b : 2\x7d" = "\x7b\"a\": 1, \"b\" : 2\x7d" := by decide
example : fix_unquoted_keys "\x7b\"a\": 1\x7d" = "\x7b\"a\": 1\x7d" := by decide

/-- The fenced code block wrapping from the spec's round-trip property
(and its end-to-end example): the text inside a ```json fence. -/
def fencedWrap (t : String) : String := "```json\n" ++ t ++ "\n```"

/-- Result of `robust_json_parse`: either the parsed payload with the name
of the first successful strategy, or the failure wrapper dict
(`parsed: False`). -/
inductive ParseOutcome where
  | parsed (data : Json) (strategy_used : String)
  | failed (raw_response : String) (parse_error : Option String)
      (strategies_tried : List String)

/-- The ordered strategy names of `robust_json_parse`. -/
def strategyNames : List String := ["direct", "extract_block", "fix_commas", "fix_keys"]

/-- The transform paired with each strategy name. -/
def applyStrategy (name : String) (t : String) : String :=
  if name = "direct" then t
  else if name = "extract_block" then extract_json_block t
  else if name = "fix_commas" then fix_trailing_commas (extract_json_block t)
  else fix_unquoted_keys (fix_trailing_commas (extract_json_block t))

/-- Stand-in for `str(json.JSONDecodeError)` on a failing document: CPython's
message text (line/column detail) is not reproduced; the model keeps the
failing document so that errors of different strategies stay distinct. -/
def jsonDecodeError (t : String) : String := "Could not parse as JSON: " ++ t

/-- The strategy loop of `robust_json_parse`. -/
def robustGo (text : String) (lastErr : Option String) : List String → ParseOutcome
  | [] => .failed text lastErr strategyNames
  | n :: rest =>
    match jsonParse (applyStrategy n text) with
    | some v => .parsed v n
    | none => robustGo text (some (jsonDecodeError (applyStrategy n text))) rest

/-- `robust_json_parse`: try the four strategies in order; on total failure
return the wrapper carrying the raw text, the last parse error and the
ordered list of attempted strategies. -/
def robust_json_parse (text : String) : ParseOutcome :=
  robustGo text none strategyNames

example : robust_json_parse "[1]" = .parsed (Json.arr [Json.num "1"]) "direct" := rfl
example : robust_json_parse "x ```json\n[1]\n``` y" =
    .parsed (Json.arr [Json.num "1"]) "extract_block" := rfl
example : robust_json_parse "```json\n[1, ]\n```" =
    .parsed (Json.arr [Json.num "1"]) "fix_commas" := rfl
example : robust_json_parse "\x7ba: 1\x7d" =
    .parsed (Json.obj [("a", Json.num "1")]) "fix_keys" := rfl
example : robust_json_parse "nope" =
    .failed "nope" (some (jsonDecodeError "nope")) strategyNames := rfl

/-! ## Retry executor (`RetryConfig`, `with_retry`) -/

/-- A raised Python exception: class name (`type(e).__name__`) and message
(`str(e)`).  `NonRetryableError` is recognised by name; `asyncio.TimeoutError`
has name `TimeoutError`. -/
structure PyExc where
  name : String
  msg : String
deriving DecidableEq

/-- `RetryConfig` (floats as rationals). -/
structure RetryConfig where
  max_attempts : Nat
  base_delay : ℚ
  max_delay : ℚ
  exponential_base : ℚ
deriving DecidableEq

/-- The module-level `RETRY_CONFIG = RetryConfig()` defaults. -/
def RETRY_CONFIG : RetryConfig := ⟨3, 1, 30, 2⟩

/-- The operation handed to `with_retry`: the outcome of the awaited
`func()` on each 1-indexed attempt. -/
def AttemptFun (α : Type) := Nat → Except PyExc α

/-- The backoff delay computed before retrying attempt `n` (1-indexed):
`min(base_delay * exponential_base^(n-1), max_delay)`. -/
def retryDelay (cfg : RetryConfig) (n : Nat) : ℚ :=
  min (cfg.base_delay * cfg.exponential_base ^ (n - 1)) cfg.max_delay

/-- The loop of `with_retry` from attempt `attempt` on.  Returns the
propagated result, the `(attempt, error)` pairs passed to `on_retry`, the
delays slept, and the number of attempts executed.  The fuel is
`max_attempts - attempt + 1`; it reaches the 0 case only when
`max_attempts = 0`, where the Python loop body never runs and
`raise last_exception` re-raises `None`, a `TypeError`. -/
def withRetryGo {α : Type} (f : AttemptFun α) (cfg : RetryConfig) :
    Nat → Nat → Except PyExc α × List (Nat × PyExc) × List ℚ × Nat
  | 0, _ =>
    (.error ⟨"TypeError", "exceptions must derive from BaseException"⟩, [], [], 0)
  | fuel + 1, attempt =>
    match f attempt with
    | .ok v => (.ok v, [], [], 1)
    | .error e =>
      if e.name = "NonRetryableError" then (.error e, [], [], 1)
      else if attempt = cfg.max_attempts then (.error e, [], [], 1)
      else
        let r := withRetryGo f cfg fuel (attempt + 1)
        (r.1, (attempt, e) :: r.2.1, retryDelay cfg attempt :: r.2.2.1, r.2.2.2 + 1)

/-- `with_retry(func, config, on_retry)`, instrumented with the observable
retry events, backoff delays, and attempt count. -/
def with_retry {α : Type} (f : AttemptFun α) (cfg : RetryConfig) :
    Except PyExc α × List (Nat × PyExc) × List ℚ × Nat :=
  withRetryGo f cfg cfg.max_attempts 1

example :
    with_retry (fun n => if n = 3 then .ok 7 else .error ⟨"RuntimeError", "boom"⟩)
      RETRY_CONFIG =
    (.ok 7, [(1, ⟨"RuntimeError", "boom"⟩), (2, ⟨"RuntimeError", "boom"⟩)],
      [retryDelay RETRY_CONFIG 1, retryDelay RETRY_CONFIG 2], 3) := rfl

example :
    with_retry (fun _ => (.error ⟨"RuntimeError", "boom"⟩ : Except PyExc Nat))
      RETRY_CONFIG =
    (.error ⟨"RuntimeError", "boom"⟩,
      [(1, ⟨"RuntimeError", "boom"⟩), (2, ⟨"RuntimeError", "boom"⟩)],
      [retryDelay RETRY_CONFIG 1, retryDelay RETRY_CONFIG 2], 3) := rfl

example :
    with_retry (fun _ => (.error ⟨"NonRetryableError", "bad"⟩ : Except PyExc Nat))
      RETRY_CONFIG =
    (.error ⟨"NonRetryableError", "bad"⟩, [], [], 1) := rfl

example : retryDelay RETRY_CONFIG 1 = 1 := by
  simp [retryDelay, RETRY_CONFIG]

example : retryDelay RETRY_CONFIG 2 = 2 := by
  norm_num [retryDelay, RETRY_CONFIG, min_def]

example : retryDelay ⟨8, 1, 30, 2⟩ 7 = 30 := by
  norm_num [retryDelay, min_def]

/-- The retry loop from attempt `n` on, with the fuel the loop invariant
maintains (`with_retry` is `withRetryFrom f cfg 1`). -/
def withRetryFrom {α : Type} (f : AttemptFun α) (cfg : RetryConfig) (n : Nat) :
    Except PyExc α × List (Nat × PyExc) × List ℚ × Nat :=
  withRetryGo f cfg (cfg.max_attempts + 1 - n) n

/-! ## Providers, credentials and health probing -/

/-- Modelled from the spec: the `Provider` enum of the external `u-llm-sdk`
(`llm_types.Provider`), a closed set of backend identities; spec 9 notes
that `gpt` and `codex` alias the same identity (`CODEX`).  `value` is the
string the code embeds in outcome dicts (`provider.value`). -/
inductive Provider where
  | CLAUDE
  | CODEX
  | GEMINI
deriving DecidableEq

/-- Modelled from the spec: the enum's string value. -/
def Provider.value : Provider → String
  | .CLAUDE => "claude"
  | .CODEX => "codex"
  | .GEMINI => "gemini"

/-- `PROVIDER_MAP`: CLI provider names to backend identities. -/
def PROVIDER_MAP : List (String × Provider) :=
  [("claude", .CLAUDE), ("gpt", .CODEX), ("codex", .CODEX), ("gemini", .GEMINI)]

/-- Python `PROVIDER_MAP.get(name)`. -/
def providerMapGet (name : String) : Option Provider :=
  (PROVIDER_MAP.find? (fun p => p.1 = name)).map Prod.snd

/-- The credential environment-variable table of `validate_api_keys`. -/
def envVarsFor (provider : String) : List String :=
  if provider = "claude" then ["ANTHROPIC_API_KEY", "CLAUDE_API_KEY"]
  else if provider = "gpt" then ["OPENAI_API_KEY", "CODEX_API_KEY"]
  else if provider = "codex" then ["OPENAI_API_KEY", "CODEX_API_KEY"]
  else if provider = "gemini" then ["GOOGLE_API_KEY", "GEMINI_API_KEY"]
  else []

/-- The process environment: `os.environ.get`.  `some ""` is falsy in the
code's `if os.environ.get(var):` test, like an unset variable. -/
def EnvMap := String → Option String

/-- Truthiness of an environment lookup. -/
def envTruthy (env : EnvMap) (var : String) : Bool :=
  match env var with
  | some s => !s.isEmpty
  | none => false

/-- Result dict of `validate_api_keys`. -/
structure ApiKeyCheck where
  valid : Bool
  provider : String
  checked_vars : List String
  error : Option String
deriving DecidableEq

/-- The search loop of `validate_api_keys`: append each variable to
`checked_vars`, stop at the first truthy one. -/
def checkVars (env : EnvMap) : List String → Bool × List String
  | [] => (false, [])
  | v :: rest =>
    if envTruthy env v then (true, [v])
    else
      let r := checkVars env rest
      (r.1, v :: r.2)

/-- Python `", ".join(xs)`. -/
def joinComma : List String → String
  | [] => ""
  | [x] => x
  | x :: rest => x ++ ", " ++ joinComma rest

/-- `validate_api_keys(provider)`. -/
def validate_api_keys (env : EnvMap) (provider : String) : ApiKeyCheck :=
  let required := envVarsFor provider
  let r := checkVars env required
  { valid := r.1
    provider := provider
    checked_vars := r.2
    error :=
      if r.1 then none
      else some ("No API key found for " ++ provider ++ ". Set one of: " ++
        joinComma required) }

/-- `ProviderStatus` (the `latency_ms` field is wall-clock data and is
omitted from the model). -/
structure ProviderStatus where
  provider : String
  available : Bool
  error : Option String
  error_type : Option String
deriving DecidableEq

/-- The response object of `llm.run(prompt)` in the external SDK, modelled
from the spec's Model Backend interface: `call(request) -> {text,
sessionId}` or failure. -/
structure LLMRunResult where
  success : Bool
  text : String
  session_id : String
  error : Option String
deriving DecidableEq

/-- The environment a health probe runs against: the process environment
and the canary call's outcome per backend identity. -/
structure HealthEnv where
  env : EnvMap
  canary : Provider → Except PyExc LLMRunResult

/-- `test_provider_availability(provider_name, timeout)`: Claude is assumed
available without probing; unknown names are rejected; missing credentials
report an `auth` failure without a canary call; otherwise the canary
outcome is classified (an `asyncio.TimeoutError` as `timeout`). -/
def test_provider_availability (h : HealthEnv) (provider_name : String)
    (timeout : ℚ) : ProviderStatus :=
  if provider_name = "claude" then
    { provider := "claude", available := true, error := none, error_type := none }
  else
    match providerMapGet provider_name with
    | none =>
      { provider := provider_name, available := false
        error := some ("Unknown provider: " ++ provider_name)
        error_type := some "invalid_provider" }
    | some p =>
      let api := validate_api_keys h.env provider_name
      if !api.valid then
        { provider := provider_name, available := false
          error := api.error, error_type := some "auth" }
      else
        match h.canary p with
        | .ok r =>
          if r.success then
            { provider := provider_name, available := true
              error := none, error_type := none }
          else
            { provider := provider_name, available := false
              error := r.error
              error_type := some (classify_error (r.error.getD "")) }
        | .error e =>
          if e.name = "TimeoutError" then
            { provider := provider_name, available := false
              error := some ("Health check timed out after " ++ pyFloatStr timeout ++ "s")
              error_type := some "timeout" }
          else
            { provider := provider_name, available := false
              error := some e.msg
              error_type := some (classify_error e.msg) }

example :
    test_provider_availability ⟨fun _ => none, fun _ => .error ⟨"X", "y"⟩⟩ "claude" 15 =
    ⟨"claude", true, none, none⟩ := rfl

example :
    test_provider_availability ⟨fun _ => none, fun _ => .ok ⟨true, "OK", "s", none⟩⟩
      "gemini" 15 =
    ⟨"gemini", false,
      some "No API key found for gemini. Set one of: GOOGLE_API_KEY, GEMINI_API_KEY",
      some "auth"⟩ := by decide

example :
    test_provider_availability
      ⟨fun v => if v = "GOOGLE_API_KEY" then some "k" else none,
        fun _ => .error ⟨"TimeoutError", ""⟩⟩ "gemini" 15 =
    ⟨"gemini", false, some "Health check timed out after 15.0s", some "timeout"⟩ := by
  decide

/-! ## Phase configuration and the orchestrator -/

/-- `TimeoutConfig().get(phase)`: `getattr(self, phase, 90.0)` over the five
phase fields. -/
def timeoutConfigGet (phase : String) : ℚ :=
  if phase = "initial_research" then 180
  else if phase = "round_claim" then 90
  else if phase = "round_claim_attack" then 90
  else if phase = "prep_defense" then 180
  else if phase = "round_defense" then 90
  else 90

/-- The keys of `PHASE_PROMPTS`, in insertion order. -/
def PHASE_NAMES : List String :=
  ["initial_research", "round_claim", "round_claim_attack", "prep_defense",
    "round_defense"]

/-- The keyword context `run_phase` forwards to `build_prompt`. -/
structure PhaseContext where
  round_num : Nat
  speaker_order : Nat
  is_final : Bool
  own_research : String
  visible_statements : String
  debate_history : String
  attacks_received : String
  own_prep : String
  round_statements : String
  attacks_to_address : String
deriving DecidableEq

/-- A `PhaseContext` with the CLI defaults. -/
def defaultCtx : PhaseContext :=
  ⟨1, 1, false, "\x7b\x7d", "", "", "", "\x7b\x7d", "", ""⟩

/-- `build_prompt(phase, **kwargs)`: raises `ValueError(f"Unknown phase:
{phase}")` when the phase is not a `PHASE_PROMPTS` key, otherwise renders
the phase template.  The prompt bodies are debate content, out of scope per
spec 1 (opaque Prompt Builder); the model renders them as a tagged
concatenation of the consumed fields, keeping exactly the behaviour the
claims depend on: which phase names exist, and that rendering a known
phase with `run_phase`'s keyword set always succeeds. -/
def build_prompt (phase role topic viewpoint : String) (ctx : PhaseContext) :
    Except String String :=
  if phase ∈ PHASE_NAMES then
    .ok (phase ++ "|" ++ role ++ "|" ++ topic ++ "|" ++ viewpoint ++ "|" ++
      toString ctx.round_num ++ "|" ++ toString ctx.speaker_order ++ "|" ++
      ctx.own_research ++ "|" ++ ctx.visible_statements ++ "|" ++
      ctx.debate_history ++ "|" ++ ctx.attacks_received ++ "|" ++ ctx.own_prep ++
      "|" ++ ctx.round_statements ++ "|" ++ ctx.attacks_to_address)
  else .error ("Unknown phase: " ++ phase)

/-- The `result` key of a phase outcome: the parsed JSON on success, or
`{"raw_response": text}` when every recovery strategy failed. -/
inductive ResultPayload where
  | parsedData (j : Json)
  | rawResponse (text : String)

/-- A `FallbackEvent` record (`timestamp` and `recovery_time_ms` are
wall-clock data, omitted from the model). -/
structure FallbackEventM where
  phase : String
  original_provider : String
  fallback_provider : String
  error_type : String
  error_message : String
deriving DecidableEq

/-- The outcome dict of `run_phase` / `run_phase_with_fallback`.  Optional
fields model keys added conditionally (`none` = key absent); on the success
path `retry_history` is added only when non-empty, while both failure paths
always add it.  `fallback_used = false` and `fallback_history = []` model
the absent keys, and `execution_time` is wall-clock data, omitted. -/
structure Outcome where
  success : Bool
  provider : String
  role : String
  phase : String
  round : Nat
  session_id : Option String
  result : Option ResultPayload
  parse_recovery : Option String
  warning : Option String
  parse_error : Option String
  strategies_tried : Option (List String)
  error : Option String
  error_type : Option String
  retry_history : Option (List (Nat × String))
  fallback_used : Bool
  original_provider : Option String
  fallback_history : List FallbackEventM

/-- The fields of an outcome that `should_fallback(result)` reads. -/
def Outcome.view (o : Outcome) : ResultView := ⟨o.success, o.error, o.error_type⟩

/-- The behaviour of one backend for one invocation: the outcome each
1-indexed `execute_llm()` attempt would produce, and the point at which the
surrounding `asyncio.wait_for` deadline fires, if it does.  `deadline =
some j` means the overall timeout interrupts the retry loop after exactly
`j` `on_retry` callbacks have run (interruption can only happen at an await
point, so `j` ranges over `0 .. <number of retries the full run performs>`);
`none` means the run finishes before the deadline. -/
structure BackendBeh where
  call : AttemptFun LLMRunResult
  deadline : Option Nat

/-- Build the success-path outcome dict of `run_phase` (transport success,
normalisation always resolves). -/
def successOutcome (provider : Provider) (role phase : String) (round : Nat)
    (r : LLMRunResult) (history : List (Nat × String)) : Outcome :=
  let text := pyStrip r.text
  match robust_json_parse text with
  | .parsed d strat =>
    { success := true, provider := provider.value, role := role, phase := phase
      round := round, session_id := some r.session_id
      result := some (.parsedData d)
      parse_recovery := if strat = "direct" then none else some strat
      warning := none, parse_error := none, strategies_tried := none
      error := none, error_type := none
      retry_history := if history.isEmpty then none else some history
      fallback_used := false, original_provider := none, fallback_history := [] }
  | .failed raw perr tried =>
    { success := true, provider := provider.value, role := role, phase := phase
      round := round, session_id := some r.session_id
      result := some (.rawResponse raw)
      parse_recovery := none
      warning := some "JSON parsing failed after all recovery attempts"
      parse_error := perr, strategies_tried := some tried
      error := none, error_type := none
      retry_history := if history.isEmpty then none else some history
      fallback_used := false, original_provider := none, fallback_history := [] }

/-- Build the `except asyncio.TimeoutError` outcome dict of `run_phase`. -/
def timeoutOutcome (provider : Provider) (role phase : String) (round : Nat)
    (history : List (Nat × String)) : Outcome :=
  { success := false, provider := provider.value, role := role, phase := phase
    round := round, session_id := none, result := none, parse_recovery := none
    warning := none, parse_error := none, strategies_tried := none
    error := some ("Timeout after " ++ pyFloatStr (timeoutConfigGet phase) ++ "s")
    error_type := some "timeout"
    retry_history := some history
    fallback_used := false, original_provider := none, fallback_history := [] }

/-- Build the generic `except Exception` outcome dict of `run_phase`. -/
def failureOutcome (provider : Provider) (role phase : String) (round : Nat)
    (e : PyExc) (history : List (Nat × String)) : Outcome :=
  { success := false, provider := provider.value, role := role, phase := phase
    round := round, session_id := none, result := none, parse_recovery := none
    warning := none, parse_error := none, strategies_tried := none
    error := some e.msg, error_type := some e.name
    retry_history := some history
    fallback_used := false, original_provider := none, fallback_history := [] }

/-- The `try` block of `run_phase`: run the backend call under `with_retry`
inside `asyncio.wait_for`, then normalise the response text.  A deadline
overrun, or a `TimeoutError` propagated out of the retry loop, lands in the
`except asyncio.TimeoutError` branch; any other exception lands in the
generic failure branch. -/
def runPhaseBody (b : BackendBeh) (provider : Provider) (role phase : String)
    (round : Nat) : Outcome :=
  let r := with_retry b.call RETRY_CONFIG
  let history := r.2.1.map (fun p => (p.1, p.2.msg))
  match b.deadline with
  | some j =>
    if j ≤ r.2.1.length then
      timeoutOutcome provider role phase round (history.take j)
    else
      match r.1 with
      | .ok res => successOutcome provider role phase round res history
      | .error e =>
        if e.name = "TimeoutError" then
          timeoutOutcome provider role phase round history
        else failureOutcome provider role phase round e history
  | none =>
    match r.1 with
    | .ok res => successOutcome provider role phase round res history
    | .error e =>
      if e.name = "TimeoutError" then
        timeoutOutcome provider role phase round history
      else failureOutcome provider role phase round e history

/-- `run_phase`: build the prompt (an unknown phase raises `ValueError`
before the `try` block, escaping to the caller), then execute the guarded
body. -/
def run_phase (b : BackendBeh) (provider : Provider)
    (role phase topic viewpoint : String) (ctx : PhaseContext) :
    Except String Outcome :=
  match build_prompt phase role topic viewpoint ctx with
  | .error e => .error e
  | .ok _prompt => .ok (runPhaseBody b provider role phase ctx.round_num)

/-- `FallbackConfig`. -/
structure FallbackConfig where
  enabled : Bool
  fallback_provider : String
  health_check_timeout : ℚ
deriving DecidableEq

/-- The module-level `FALLBACK_CONFIG = FallbackConfig()` defaults. -/
def FALLBACK_CONFIG : FallbackConfig := ⟨true, "claude", 15⟩

/-- `run_phase_with_fallback`: run the phase on the primary provider; if the
result is a failure, fallback is enabled, `should_fallback` holds, and a
distinct fallback backend is configured, run the phase once more on the
fallback backend, attach the single `FallbackEvent`, and mark the result. -/
def run_phase_with_fallback (env : Provider → BackendBeh) (provider : Provider)
    (role phase topic viewpoint : String) (cfg : FallbackConfig)
    (ctx : PhaseContext) : Except String Outcome :=
  match run_phase (env provider) provider role phase topic viewpoint ctx with
  | .error e => .error e
  | .ok result =>
    if !result.success ∧ cfg.enabled ∧ should_fallback result.view then
      match providerMapGet cfg.fallback_provider with
      | some fp =>
        if fp ≠ provider then
          let event : FallbackEventM :=
            { phase := phase
              original_provider := provider.value
              fallback_provider := cfg.fallback_provider
              error_type := classify_error (result.error.getD "")
              error_message := result.error.getD "" }
          match run_phase (env fp) fp role phase topic viewpoint ctx with
          | .error e => .error e
          | .ok result2 =>
            .ok { result2 with
                  fallback_used := true
                  original_provider := some provider.value
                  fallback_history := [event] }
        else .ok result
      | none => .ok result
    else .ok result

/-! ## Concrete backend behaviours for end-to-end instances -/

/-- A backend that succeeds on the first attempt with a JSON body. -/
def okBeh : BackendBeh := ⟨fun _ => .ok ⟨true, "[1]", "sess", none⟩, none⟩

/-- A backend that fails every attempt with a retryable 503. -/
def unavailBeh : BackendBeh :=
  ⟨fun _ => .error ⟨"RuntimeError", "503 service unavailable"⟩, none⟩

/-- An invocation environment in which gemini is down and every other
backend is healthy. -/
def envGeminiDown : Provider → BackendBeh
  | .GEMINI => unavailBeh
  | _ => okBeh

/-! ## Helper lemmas: characters, lowering, substrings -/

theorem toNat_ofNat_valid {n : Nat} (h : n.isValidChar) : (Char.ofNat n).toNat = n := by
  unfold Char.ofNat
  rw [dif_pos h]
  rfl

theorem lowerC_idem (c : Char) : lowerC (lowerC c) = lowerC c := by
  by_cases h : 65 ≤ c.toNat ∧ c.toNat ≤ 90
  · have hval : (c.toNat + 32).isValidChar := by
      left
      omega
    have h1 : lowerC c = Char.ofNat (c.toNat + 32) := by
      simp [lowerC, lowerNat, h]
    have h2 : (lowerC c).toNat = c.toNat + 32 := by
      rw [h1]
      exact toNat_ofNat_valid hval
    have h3 : lowerNat ((lowerC c).toNat) = (lowerC c).toNat := by
      rw [h2]
      unfold lowerNat
      rw [if_neg]
      omega
    rw [show lowerC (lowerC c) = Char.ofNat (lowerNat ((lowerC c).toNat)) from rfl, h3,
      Char.ofNat_toNat]
  · have h0 : lowerNat c.toNat = c.toNat := by simp [lowerNat, h]
    have h1 : lowerC c = c := by simp [lowerC, h0, Char.ofNat_toNat]
    rw [h1, h1]

theorem lowerL_idem (cs : List Char) : lowerL (lowerL cs) = lowerL cs := by
  simp [lowerL, Function.comp_def, lowerC_idem]

theorem jsonWs_pyWs {c : Char} (h : isJsonWs c = true) : isPyWs c = true := by
  simp only [isJsonWs, Bool.or_eq_true, decide_eq_true_eq] at h
  rcases h with ((h | h) | h) | h <;> simp [isPyWs, h]

theorem digit_not_pyWs {c : Char} (h : isDigitC c = true) : isPyWs c = false := by
  by_contra hh
  have hw : isPyWs c = true := by
    cases hc : isPyWs c
    · exact absurd hc hh
    · rfl
  simp only [isPyWs, Bool.or_eq_true, decide_eq_true_eq] at hw
  rcases hw with ((((h1 | h1) | h1) | h1) | h1) | h1 <;> subst h1 <;> simp [isDigitC] at h

theorem isPrefixL_append_self (p rest : List Char) : isPrefixL p (p ++ rest) = true := by
  induction p with
  | nil => simp [isPrefixL]
  | cons c cs ih => simp [isPrefixL, ih]

theorem containsL_of_isPrefixL {u pat : List Char} (h : isPrefixL pat u = true) :
    containsL u pat = true := by
  cases u <;> simp [containsL, h]

theorem containsL_cons_false {c : Char} {u pat : List Char}
    (h : containsL (c :: u) pat = false) :
    isPrefixL pat (c :: u) = false ∧ containsL u pat = false := by
  rw [containsL] at h
  simp only [Bool.or_eq_false_iff] at h
  exact h

/-! ## Helper lemmas: `matchGroup` and the classifier (claims C2/C3) -/

theorem matchGroup_append (l : List Char) (xs ys : List (String × List String)) :
    matchGroup l (xs ++ ys) =
      match matchGroup l xs with
      | some k => some k
      | none => matchGroup l ys := by
  induction xs with
  | nil => simp [matchGroup]
  | cons g rest ih =>
    obtain ⟨k, ps⟩ := g
    by_cases h : ps.any (fun p => containsL l p.data)
    · simp [matchGroup, h]
    · simp [matchGroup, h, ih]

theorem matchGroup_eq_find (l : List Char) (gs : List (String × List String)) :
    matchGroup l gs = (gs.find? (fun g => g.2.any (fun p => containsL l p.data))).map Prod.fst := by
  induction gs with
  | nil => simp [matchGroup]
  | cons g rest ih =>
    obtain ⟨k, ps⟩ := g
    have hp : (fun (g : String × List String) => g.2.any (fun p => containsL l p.data)) (k, ps) =
        ps.any (fun p => containsL l p.data) := rfl
    by_cases h : ps.any (fun p => containsL l p.data)
    · rw [matchGroup, if_pos h, List.find?_cons_of_pos _ (by simpa using h)]
      rfl
    · rw [matchGroup, if_neg h, ih,
        List.find?_cons_of_neg _ (by simpa using h)]

theorem matchGroup_none {l : List Char} {gs : List (String × List String)}
    (h : ∀ k ps, (k, ps) ∈ gs → ∀ p ∈ ps, containsL l p.data = false) :
    matchGroup l gs = none := by
  induction gs with
  | nil => rfl
  | cons g rest ih =>
    obtain ⟨k, ps⟩ := g
    have hg : ps.any (fun p => containsL l p.data) = false := by
      simp only [List.any_eq_false]
      intro p hp
      simp [h k ps (by simp) p hp]
    rw [matchGroup, hg]
    simp only [Bool.false_eq_true, if_false]
    exact ih (fun k' ps' hm => h k' ps' (List.mem_cons_of_mem _ hm))

theorem classify_error_eq_spec (msg : String) : classify_error msg = classify_spec msg := by
  rw [classify_error, classify_spec, ← matchGroup_eq_find, matchGroup_append]
  cases matchGroup (lowerL msg.data) FALLBACK_ERROR_PATTERNS <;>
    cases h : matchGroup (lowerL msg.data) HARD_FAILURE_PATTERNS <;> simp [h]

theorem classify_error_lower (msg : String) :
    classify_error (pyLower msg) = classify_error msg := by
  rw [classify_error, classify_error]
  have hd : (pyLower msg).data = lowerL msg.data := rfl
  rw [hd, lowerL_idem]

/-! ## Helper lemmas: the retry executor (claims C5/C6) -/

theorem with_retry_eq_from {α : Type} (f : AttemptFun α) (cfg : RetryConfig) :
    with_retry f cfg = withRetryFrom f cfg 1 := by
  simp [with_retry, withRetryFrom]

theorem withRetryFrom_ok {α : Type} {f : AttemptFun α} {cfg : RetryConfig} {n : Nat}
    (h2 : n ≤ cfg.max_attempts) {v : α} (h : f n = .ok v) :
    withRetryFrom f cfg n = (.ok v, [], [], 1) := by
  have hfuel : cfg.max_attempts + 1 - n = (cfg.max_attempts - n) + 1 := by omega
  rw [withRetryFrom, hfuel, withRetryGo, h]

theorem withRetryFrom_nonretryable {α : Type} {f : AttemptFun α} {cfg : RetryConfig}
    {n : Nat} (h2 : n ≤ cfg.max_attempts) {e : PyExc} (h : f n = .error e)
    (hn : e.name = "NonRetryableError") :
    withRetryFrom f cfg n = (.error e, [], [], 1) := by
  have hfuel : cfg.max_attempts + 1 - n = (cfg.max_attempts - n) + 1 := by omega
  rw [withRetryFrom, hfuel, withRetryGo, h]
  simp [hn]

theorem withRetryFrom_last {α : Type} {f : AttemptFun α} {cfg : RetryConfig}
    {n : Nat} {e : PyExc} (h : f n = .error e) (hn : e.name ≠ "NonRetryableError")
    (hlast : n = cfg.max_attempts) :
    withRetryFrom f cfg n = (.error e, [], [], 1) := by
  have hfuel : cfg.max_attempts + 1 - n = (cfg.max_attempts - n) + 1 := by omega
  rw [withRetryFrom, hfuel, withRetryGo, h]
  simp [hn, hlast]

theorem withRetryFrom_retry {α : Type} {f : AttemptFun α} {cfg : RetryConfig}
    {n : Nat} {e : PyExc} (h : f n = .error e) (hn : e.name ≠ "NonRetryableError")
    (hlt : n < cfg.max_attempts) :
    withRetryFrom f cfg n =
      ((withRetryFrom f cfg (n + 1)).1,
        (n, e) :: (withRetryFrom f cfg (n + 1)).2.1,
        retryDelay cfg n :: (withRetryFrom f cfg (n + 1)).2.2.1,
        (withRetryFrom f cfg (n + 1)).2.2.2 + 1) := by
  have hfuel : cfg.max_attempts + 1 - n = (cfg.max_attempts + 1 - (n + 1)) + 1 := by omega
  rw [withRetryFrom, hfuel, withRetryGo, h]
  have hne : ¬n = cfg.max_attempts := by omega
  simp [hn, hne, withRetryFrom]

theorem withRetryFrom_all_fail {α : Type} (f : AttemptFun α) (cfg : RetryConfig)
    (err : Nat → PyExc) (hf : ∀ k, f k = .error (err k))
    (hnr : ∀ k, (err k).name ≠ "NonRetryableError") :
    ∀ d n, 1 ≤ n → n ≤ cfg.max_attempts → cfg.max_attempts - n = d →
      withRetryFrom f cfg n =
        (.error (err cfg.max_attempts),
          (List.range' n (cfg.max_attempts - n)).map (fun k => (k, err k)),
          (List.range' n (cfg.max_attempts - n)).map (retryDelay cfg),
          cfg.max_attempts - n + 1) := by
  intro d
  induction d with
  | zero =>
    intro n h1 h2 hd
    have hn : n = cfg.max_attempts := by omega
    rw [withRetryFrom_last (hf n) (hnr n) hn, hd, hn]
    simp
  | succ d ih =>
    intro n h1 h2 hd
    have hlt : n < cfg.max_attempts := by omega
    rw [withRetryFrom_retry (hf n) (hnr n) hlt,
      ih (n + 1) (by omega) (by omega) (by omega)]
    have hr : cfg.max_attempts - n = (cfg.max_attempts - (n + 1)) + 1 := by omega
    rw [hr, List.range'_succ]
    simp only [List.map_cons]

/-- All-failure run of `with_retry` from attempt 1 (`max_attempts ≥ 1`). -/
theorem with_retry_all_fail {α : Type} (f : AttemptFun α) (cfg : RetryConfig)
    (err : Nat → PyExc) (hf : ∀ k, f k = .error (err k))
    (hnr : ∀ k, (err k).name ≠ "NonRetryableError") (hM : 1 ≤ cfg.max_attempts) :
    with_retry f cfg =
      (.error (err cfg.max_attempts),
        (List.range' 1 (cfg.max_attempts - 1)).map (fun k => (k, err k)),
        (List.range' 1 (cfg.max_attempts - 1)).map (retryDelay cfg),
        cfg.max_attempts) := by
  rw [with_retry_eq_from,
    withRetryFrom_all_fail f cfg err hf hnr (cfg.max_attempts - 1) 1 le_rfl hM rfl]
  have : cfg.max_attempts - 1 + 1 = cfg.max_attempts := by omega
  rw [this]

/-! ## Helper lemmas: stripping and fence location (claim C7) -/

theorem dropWhile_append_of_all {p : Char → Bool} {a b : List Char}
    (h : ∀ c ∈ a, p c = true) : (a ++ b).dropWhile p = b.dropWhile p := by
  induction a with
  | nil => simp
  | cons c cs ih =>
    rw [List.cons_append, List.dropWhile_cons, if_pos (h c (by simp))]
    exact ih (fun c' hc' => h c' (by simp [hc']))

theorem pyStripL_cons_ws {c : Char} (hc : isPyWs c = true) (u : List Char) :
    pyStripL (c :: u) = pyStripL u := by
  rw [pyStripL, pyStripL, List.dropWhile_cons, if_pos hc]

theorem pyStripL_append_ws {c : Char} (hc : isPyWs c = true) (u : List Char) :
    pyStripL (u ++ [c]) = pyStripL u := by
  rw [pyStripL, pyStripL, List.dropWhile_append]
  by_cases h : (u.dropWhile isPyWs).isEmpty
  · rw [if_pos h]
    have h1 : u.dropWhile isPyWs = [] := by simpa [List.isEmpty_iff] using h
    rw [h1, show ([c] : List Char).dropWhile isPyWs = [] by
      simp [List.dropWhile_cons, hc]]
  · rw [if_neg h]
    have h1 : ∃ d v, u.dropWhile isPyWs = d :: v := by
      cases hu : u.dropWhile isPyWs with
      | nil => simp [hu, List.isEmpty_iff] at h
      | cons d v => exact ⟨d, v, rfl⟩
    obtain ⟨d, v, hdv⟩ := h1
    rw [hdv, List.reverse_append, List.reverse_singleton, List.singleton_append,
      List.dropWhile_cons, if_pos hc]

theorem pyStripL_pad (u : List Char) :
    pyStripL ('\n' :: u ++ ['\n']) = pyStripL u := by
  rw [show ('\n' :: u ++ ['\n'] : List Char) = '\n' :: (u ++ ['\n']) from rfl,
    pyStripL_cons_ws (by decide), pyStripL_append_ws (by decide)]

theorem findIdx?_of_prefix {hay pat : List Char} (h : isPrefixL pat hay = true) :
    findIdx? hay pat = some 0 := by
  cases hay <;> rw [findIdx?] <;> simp [h]

theorem fence_prefix_shrink {x y : List Char}
    (h : isPrefixL fenceL (x ++ '\n' :: y) = true) : isPrefixL fenceL x = true := by
  match x with
  | [] =>
    exfalso
    rw [List.nil_append] at h
    simp only [fenceL, isPrefixL, Bool.and_eq_true, decide_eq_true_eq] at h
    exact absurd h.1 (by decide)
  | [a] =>
    exfalso
    simp only [List.cons_append, List.nil_append, fenceL, isPrefixL,
      Bool.and_eq_true, decide_eq_true_eq] at h
    exact absurd h.2.1 (by decide)
  | [a, b] =>
    exfalso
    simp only [List.cons_append, List.nil_append, fenceL, isPrefixL,
      Bool.and_eq_true, decide_eq_true_eq] at h
    exact absurd h.2.2.1 (by decide)
  | a :: b :: c :: r =>
    simp only [List.cons_append, fenceL, isPrefixL, Bool.and_eq_true,
      decide_eq_true_eq, and_true] at h ⊢
    exact ⟨h.1, h.2.1, h.2.2⟩

theorem findIdx?_fence_pad {u : List Char} (h : containsL u fenceL = false) :
    findIdx? (u ++ '\n' :: fenceL) fenceL = some (u.length + 1) := by
  induction u with
  | nil =>
    rw [List.nil_append]
    decide
  | cons c u' ih =>
    obtain ⟨hpre, hcon⟩ := containsL_cons_false h
    have hpre2 : isPrefixL fenceL (c :: (u' ++ '\n' :: fenceL)) = false := by
      cases hp : isPrefixL fenceL (c :: (u' ++ '\n' :: fenceL))
      · rfl
      · have hp2 : isPrefixL fenceL ((c :: u') ++ '\n' :: fenceL) = true := by
          rw [List.cons_append]
          exact hp
        exact absurd (fence_prefix_shrink hp2) (by simp [hpre])
    rw [List.cons_append, findIdx?, hpre2]
    simp only [Bool.false_eq_true, if_false]
    rw [ih hcon]
    simp [List.length_cons]

theorem fencedWrap_data (t : String) :
    (fencedWrap t).data = fenceJsonL ++ ('\n' :: (t.data ++ '\n' :: fenceL)) := by
  have h1 : ("```json\n" : String).data = fenceJsonL ++ ['\n'] := by decide
  have h2 : ("\n```" : String).data = '\n' :: fenceL := by decide
  rw [fencedWrap, String.data_append, String.data_append, h1, h2]
  simp [List.append_assoc]

theorem fence_not_prefix_nl (z : List Char) : isPrefixL fenceL ('\n' :: z) = false := by
  cases hp : isPrefixL fenceL ('\n' :: z)
  · rfl
  · exfalso
    rw [show fenceL = btick :: btick :: btick :: [] from rfl, isPrefixL] at hp
    simp only [Bool.and_eq_true, decide_eq_true_eq] at hp
    exact absurd hp.1 (by decide)

theorem extract_json_block_wrap (t : String) (h : containsL t.data fenceL = false) :
    extract_json_block (fencedWrap t) = pyStrip t := by
  have hdata := fencedWrap_data t
  have hcontains : containsL (fencedWrap t).data fenceJsonL = true := by
    rw [hdata]
    exact containsL_of_isPrefixL (isPrefixL_append_self _ _)
  have hfind0 : pyFindFrom (fencedWrap t).data fenceJsonL 0 = 0 := by
    rw [pyFindFrom, List.drop_zero, hdata,
      findIdx?_of_prefix (isPrefixL_append_self _ _)]
    rfl
  have hdrop : (fencedWrap t).data.drop 7 = '\n' :: (t.data ++ '\n' :: fenceL) := by
    rw [hdata, List.drop_left' (by decide : (fenceJsonL : List Char).length = 7)]
  have hfind7 : pyFindFrom (fencedWrap t).data fenceL 7 = (t.data.length : Int) + 9 := by
    rw [pyFindFrom, hdrop, findIdx?, fence_not_prefix_nl]
    simp only [Bool.false_eq_true, if_false]
    rw [findIdx?_fence_pad h]
    show ((7 : Nat) : Int) + ((t.data.length + 1 + 1 : Nat) : Int) = (t.data.length : Int) + 9
    push_cast
    omega
  have hslice : pySlice (fencedWrap t) 7 (t.data.length + 9) =
      String.mk ('\n' :: (t.data ++ ['\n'])) := by
    rw [pySlice, hdrop]
    have h9 : t.data.length + 9 - 7 = t.data.length + 1 + 1 := by omega
    rw [h9, List.take_succ_cons]
    have hsplit : t.data ++ '\n' :: fenceL = (t.data ++ ['\n']) ++ fenceL := by
      rw [List.append_assoc]
      rfl
    rw [hsplit, List.take_left' (by simp)]
  rw [extract_json_block]
  simp only [hcontains, if_true, hfind0, Int.toNat_zero, Nat.zero_add]
  have hgt : pyFindFrom (fencedWrap t).data fenceL 7 > ((7 : Nat) : Int) := by
    rw [hfind7]
    push_cast
    omega
  rw [if_pos hgt, hfind7]
  have htn : Int.toNat ((t.data.length : Int) + 9) = t.data.length + 9 := by omega
  rw [htn, hslice]
  rw [show pyStrip (String.mk ('\n' :: (t.data ++ ['\n']))) =
      String.mk (pyStripL ('\n' :: (t.data ++ ['\n']))) from rfl]
  rw [show ('\n' :: (t.data ++ ['\n']) : List Char) = ('\n' :: t.data) ++ ['\n'] by simp,
    pyStripL_pad]
  rfl

/-! ## Helper lemmas: the JSON parser consumes through a non-whitespace
character (claim C7) -/

theorem skipWs_decomp (cs : List Char) : cs = cs.takeWhile isJsonWs ++ skipWs cs :=
  (List.takeWhile_append_dropWhile _ _).symm

theorem takeWhile_all_jsonWs (cs : List Char) :
    ∀ c ∈ cs.takeWhile isJsonWs, isJsonWs c = true :=
  fun _ hc => List.mem_takeWhile_imp hc

theorem ne_nil_concat {l : List Char} (h : l ≠ []) : ∃ q d, l = q ++ [d] ∧ d ∈ l := by
  cases hr : l.reverse with
  | nil => exact absurd (by simpa using congrArg List.reverse hr) h
  | cons d q =>
    refine ⟨q.reverse, d, ?_, ?_⟩
    · have := congrArg List.reverse hr
      simpa using this
    · have : d ∈ l.reverse := by rw [hr]; simp
      simpa using this

theorem lexDigits_last {cs ds rest : List Char} (h : lexDigits cs = some (ds, rest)) :
    ∃ p d, cs = p ++ d :: rest ∧ isDigitC d = true := by
  rw [lexDigits] at h
  by_cases hne : (cs.takeWhile isDigitC).isEmpty
  · rw [if_pos hne] at h
    exact absurd h (by simp)
  · rw [if_neg hne] at h
    have hrest : rest = cs.dropWhile isDigitC := (congrArg Prod.snd (Option.some.inj h)).symm
    have htw : cs.takeWhile isDigitC ≠ [] := by simpa [List.isEmpty_iff] using hne
    obtain ⟨q, d, hqd, hdm⟩ := ne_nil_concat htw
    refine ⟨q, d, ?_, List.mem_takeWhile_imp hdm⟩
    rw [hrest]
    conv_lhs => rw [(List.takeWhile_append_dropWhile (p := isDigitC) (l := cs)).symm, hqd]
    simp [List.append_assoc]

theorem lexInt_last {cs ip rest : List Char} (h : lexInt cs = some (ip, rest)) :
    ∃ p d, cs = p ++ d :: rest ∧ isDigitC d = true := by
  match cs with
  | [] => simp [lexInt] at h
  | d :: tl =>
    rw [lexInt] at h
    by_cases hd : isDigitC d
    · rw [if_pos hd] at h
      by_cases h0 : d = '0'
      · rw [if_pos h0] at h
        have hrest : rest = tl := (congrArg Prod.snd (Option.some.inj h)).symm
        exact ⟨[], d, by simp [hrest], hd⟩
      · rw [if_neg h0] at h
        exact lexDigits_last h
    · rw [if_neg hd] at h
      exact absurd h (by simp)

theorem lexFrac_spec (cs : List Char) :
    (lexFrac cs).2 = cs ∨
      ∃ p d, cs = p ++ d :: (lexFrac cs).2 ∧ isDigitC d = true := by
  rw [lexFrac.eq_def]
  split
  · rename_i r
    split
    · rename_i fd r2 hld
      obtain ⟨p, d, hp, hd⟩ := lexDigits_last hld
      exact Or.inr ⟨'.' :: p, d, by rw [hp]; simp, hd⟩
    · exact Or.inl rfl
  · exact Or.inl rfl

theorem lexSign_decomp (r : List Char) : r = (lexSign r).1 ++ (lexSign r).2 := by
  match r with
  | [] => rfl
  | c2 :: rr =>
    rw [lexSign]
    by_cases hc2 : c2 = '+' ∨ c2 = '-'
    · rw [if_pos hc2]
      rfl
    · rw [if_neg hc2]
      rfl

theorem lexExp_spec (cs : List Char) :
    (lexExp cs).2 = cs ∨
      ∃ p d, cs = p ++ d :: (lexExp cs).2 ∧ isDigitC d = true := by
  match cs with
  | [] => exact Or.inl rfl
  | e :: r =>
    rw [lexExp]
    by_cases he : e = 'e' ∨ e = 'E'
    · rw [if_pos he]
      cases hld : lexDigits (lexSign r).2 with
      | none => exact Or.inl rfl
      | some pr =>
        obtain ⟨ed, r2⟩ := pr
        obtain ⟨p, d, hp, hd⟩ := lexDigits_last hld
        refine Or.inr ⟨e :: ((lexSign r).1 ++ p), d, ?_, hd⟩
        conv_lhs => rw [lexSign_decomp r, hp]
        simp [List.append_assoc]
    · rw [if_neg he]
      exact Or.inl rfl

theorem lexNumBody_last {sgn tl lex rest : List Char}
    (h : lexNumBody sgn tl = some (lex, rest)) :
    ∃ p d, tl = p ++ d :: rest ∧ isDigitC d = true := by
  rw [lexNumBody] at h
  cases hli : lexInt tl with
  | none => rw [hli] at h; exact absurd h (by simp)
  | some pr =>
    obtain ⟨ip, r1⟩ := pr
    rw [hli] at h
    have hrest : rest = (lexExp (lexFrac r1).2).2 :=
      (congrArg Prod.snd (Option.some.inj h)).symm
    obtain ⟨p1, d1, hp1, hd1⟩ := lexInt_last hli
    rcases lexExp_spec (lexFrac r1).2 with he | ⟨p3, d3, hp3, hd3⟩
    · rcases lexFrac_spec r1 with hf | ⟨p2, d2, hp2, hd2⟩
      · have hr : rest = r1 := by rw [hrest, he, hf]
        exact ⟨p1, d1, by rw [hp1, hr], hd1⟩
      · have hr : rest = (lexFrac r1).2 := by rw [hrest, he]
        refine ⟨p1 ++ d1 :: p2, d2, ?_, hd2⟩
        rw [hp1, hp2, hr]
        simp [List.append_assoc]
    · rcases lexFrac_spec r1 with hf | ⟨p2, d2, hp2, hd2⟩
      · have hr1 : r1 = p3 ++ d3 :: rest := by
          rw [hrest, ← hp3]
          exact hf.symm
        refine ⟨p1 ++ d1 :: p3, d3, ?_, hd3⟩
        rw [hp1, hr1]
        simp [List.append_assoc]
      · refine ⟨p1 ++ d1 :: (p2 ++ d2 :: p3), d3, ?_, hd3⟩
        rw [hp1, hp2, hp3, hrest]
        simp [List.append_assoc]

theorem lexNumber_last {cs lex rest : List Char} (h : lexNumber cs = some (lex, rest)) :
    ∃ p d, cs = p ++ d :: rest ∧ isDigitC d = true := by
  rw [lexNumber.eq_def] at h
  split at h
  · rename_i r
    obtain ⟨p, d, hp, hd⟩ := lexNumBody_last h
    exact ⟨'-' :: p, d, by rw [hp]; simp, hd⟩
  · obtain ⟨p, d, hp, hd⟩ := lexNumBody_last h
    exact ⟨p, d, hp, hd⟩

theorem parseStringBody_suffix (cs acc : List Char) :
    ∀ out rest, parseStringBody cs acc = some (out, rest) →
      ∃ p, cs = p ++ '\"' :: rest := by
  induction cs, acc using parseStringBody.induct with
  | case1 x =>
    intro out rest h
    rw [parseStringBody.eq_def] at h
    exact absurd h (by simp)
  | case2 rest0 acc0 =>
    intro out rest h
    rw [parseStringBody.eq_def] at h
    simp at h
    exact ⟨[], by simp [h.2]⟩
  | case3 acc0 hne =>
    intro out rest h
    rw [parseStringBody.eq_def] at h
    simp at h
  | case4 acc0 rest2 hne ih =>
    intro out rest h
    rw [parseStringBody.eq_def] at h
    simp at h
    obtain ⟨p, hp⟩ := ih out rest h
    exact ⟨'\\' :: '\"' :: p, by rw [hp]; simp⟩
  | case5 acc0 rest2 hn1 hn2 ih =>
    intro out rest h
    rw [parseStringBody.eq_def] at h
    simp at h
    obtain ⟨p, hp⟩ := ih out rest h
    exact ⟨'\\' :: '\\' :: p, by rw [hp]; simp⟩
  | case6 acc0 rest2 hn1 hn2 hn3 ih =>
    intro out rest h
    rw [parseStringBody.eq_def] at h
    simp at h
    obtain ⟨p, hp⟩ := ih out rest h
    exact ⟨'\\' :: '/' :: p, by rw [hp]; simp⟩
  | case7 acc0 rest2 hn1 hn2 hn3 hn4 ih =>
    intro out rest h
    rw [parseStringBody.eq_def] at h
    simp at h
    obtain ⟨p, hp⟩ := ih out rest h
    exact ⟨'\\' :: 'b' :: p, by rw [hp]; simp⟩
  | case8 acc0 rest2 hn1 hn2 hn3 hn4 hn5 ih =>
    intro out rest h
    rw [parseStringBody.eq_def] at h
    simp at h
    obtain ⟨p, hp⟩ := ih out rest h
    exact ⟨'\\' :: 'f' :: p, by rw [hp]; simp⟩
  | case9 acc0 rest2 hn1 hn2 hn3 hn4 hn5 hn6 ih =>
    intro out rest h
    rw [parseStringBody.eq_def] at h
    simp at h
    obtain ⟨p, hp⟩ := ih out rest h
    exact ⟨'\\' :: 'n' :: p, by rw [hp]; simp⟩
  | case10 acc0 rest2 hn1 hn2 hn3 hn4 hn5 hn6 hn7 ih =>
    intro out rest h
    rw [parseStringBody.eq_def] at h
    simp at h
    obtain ⟨p, hp⟩ := ih out rest h
    exact ⟨'\\' :: 'r' :: p, by rw [hp]; simp⟩
  | case11 acc0 rest2 hn1 hn2 hn3 hn4 hn5 hn6 hn7 hn8 ih =>
    intro out rest h
    rw [parseStringBody.eq_def] at h
    simp at h
    obtain ⟨p, hp⟩ := ih out rest h
    exact ⟨'\\' :: 't' :: p, by rw [hp]; simp⟩
  | case12 acc0 c1 c2 c3 c4 rest3 hhex hn1 hn2 hn3 hn4 hn5 hn6 hn7 hn8 hn9 ih =>
    intro out rest h
    rw [parseStringBody.eq_def] at h
    simp [hhex] at h
    obtain ⟨p, hp⟩ := ih out rest h
    exact ⟨'\\' :: 'u' :: c1 :: c2 :: c3 :: c4 :: p, by rw [hp]; simp⟩
  | case13 acc0 c1 c2 c3 c4 rest3 hhex hn1 hn2 hn3 hn4 hn5 hn6 hn7 hn8 hn9 =>
    intro out rest h
    rw [parseStringBody.eq_def] at h
    simp [hhex] at h
  | case14 acc0 rest2 hno hn1 hn2 hn3 hn4 hn5 hn6 hn7 hn8 hn9 =>
    intro out rest h
    rw [parseStringBody.eq_def] at h
    simp at h
  | case15 acc0 e rest2 hn1 hn2 hn3 hn4 hn5 hn6 hn7 hn8 hn9 hn10 =>
    intro out rest h
    rw [parseStringBody.eq_def] at h
    simp [hn1, hn2, hn3, hn4, hn5, hn6, hn7, hn8, hn9, hn10] at h
  | case16 c rest0 acc0 hn1 hn2 hlt =>
    intro out rest h
    rw [parseStringBody.eq_def] at h
    simp [hn1, hn2, hlt] at h
  | case17 c rest0 acc0 hn1 hn2 hlt ih =>
    intro out rest h
    rw [parseStringBody.eq_def] at h
    simp [hn1, hn2, hlt] at h
    obtain ⟨p, hp⟩ := ih out rest h
    exact ⟨c :: p, by rw [hp]; simp⟩

theorem skipWs_cons_decomp {r : List Char} {c2 : Char} {rest2 : List Char}
    (hsw : skipWs r = c2 :: rest2) :
    r = r.takeWhile isJsonWs ++ (c2 :: rest2) := by
  conv_lhs => rw [skipWs_decomp r]
  rw [hsw]

theorem expectLit_eq_some :
    ∀ {ls cs r : List Char}, expectLit ls cs = some r → cs = ls ++ r := by
  intro ls
  induction ls with
  | nil =>
    intro cs r h
    rw [expectLit] at h
    simpa using Option.some.inj h
  | cons l ls ih =>
    intro cs r h
    cases cs with
    | nil => simp [expectLit] at h
    | cons c cs' =>
      rw [expectLit] at h
      by_cases hc : c = l
      · rw [if_pos hc] at h
        rw [hc, List.cons_append, ← ih h]
      · rw [if_neg hc] at h
        exact absurd h (by simp)

set_option maxHeartbeats 2000000 in
/-- A successful parse consumes at least through a final non-whitespace
character: `parseValue` leaves `rest` immediately preceded by a
non-whitespace character, `parseElems` by the closing `]`, and
`parseMembers` by the closing brace. -/
theorem parse_consume (fuel : Nat) :
    (∀ cs v rest, parseValue fuel cs = some (v, rest) →
      ∃ p c, cs = p ++ c :: rest ∧ isPyWs c = false) ∧
    (∀ cs xs rest, parseElems fuel cs = some (xs, rest) →
      ∃ p, cs = p ++ ']' :: rest) ∧
    (∀ cs ms rest, parseMembers fuel cs = some (ms, rest) →
      ∃ p, cs = p ++ rbrace :: rest) := by
  induction fuel with
  | zero =>
    refine ⟨?_, ?_, ?_⟩ <;> intro cs a rest h <;>
      simp [parseValue, parseElems, parseMembers] at h
  | succ fuel ihfull =>
    obtain ⟨ihv, ihe, ihm⟩ := ihfull
    refine ⟨?_, ?_, ?_⟩
    · -- parseValue
      intro cs v rest h
      cases cs with
      | nil => rw [parseValue] at h; exact absurd h (by simp)
      | cons c r =>
        rw [parseValue] at h
        by_cases h1 : c = lbrace
        · -- object
          rw [if_pos h1] at h
          subst h1
          split at h
          · exact absurd h (by simp)
          · rename_i c2 rest2 hsw
            by_cases hc2 : c2 = rbrace
            · rw [if_pos hc2] at h
              subst hc2
              have hr2 : rest2 = rest := congrArg Prod.snd (Option.some.inj h)
              refine ⟨lbrace :: r.takeWhile isJsonWs, rbrace, ?_, by decide⟩
              conv_lhs => rw [skipWs_cons_decomp hsw, hr2]
              simp
            · rw [if_neg hc2] at h
              rcases Option.map_eq_some'.mp h with ⟨⟨ms, r3⟩, hpm, hmap⟩
              have hr3 : r3 = rest := congrArg Prod.snd hmap
              obtain ⟨p, hp⟩ := ihm _ _ _ hpm
              refine ⟨lbrace :: (r.takeWhile isJsonWs ++ p), rbrace, ?_, by decide⟩
              conv_lhs => rw [skipWs_cons_decomp hsw, hp, hr3]
              simp [List.append_assoc]
        rw [if_neg h1] at h
        by_cases h2 : c = '['
        · -- array
          rw [if_pos h2] at h
          subst h2
          split at h
          · exact absurd h (by simp)
          · rename_i c2 rest2 hsw
            by_cases hc2 : c2 = ']'
            · rw [if_pos hc2] at h
              subst hc2
              have hr2 : rest2 = rest := congrArg Prod.snd (Option.some.inj h)
              refine ⟨'[' :: r.takeWhile isJsonWs, ']', ?_, by decide⟩
              conv_lhs => rw [skipWs_cons_decomp hsw, hr2]
              simp
            · rw [if_neg hc2] at h
              rcases Option.map_eq_some'.mp h with ⟨⟨xs, r3⟩, hpe, hmap⟩
              have hr3 : r3 = rest := congrArg Prod.snd hmap
              obtain ⟨p, hp⟩ := ihe _ _ _ hpe
              refine ⟨'[' :: (r.takeWhile isJsonWs ++ p), ']', ?_, by decide⟩
              conv_lhs => rw [skipWs_cons_decomp hsw, hp, hr3]
              simp [List.append_assoc]
        rw [if_neg h2] at h
        by_cases h3 : c = '\"'
        · -- string
          rw [if_pos h3] at h
          subst h3
          rcases Option.map_eq_some'.mp h with ⟨⟨out, r2⟩, hps, hmap⟩
          have hr2 : r2 = rest := congrArg Prod.snd hmap
          obtain ⟨p, hp⟩ := parseStringBody_suffix r [] out r2 hps
          refine ⟨'\"' :: p, '\"', ?_, by decide⟩
          conv_lhs => rw [hp, hr2]
          simp
        rw [if_neg h3] at h
        by_cases h4 : c = 't'
        · rw [if_pos h4] at h
          subst h4
          rcases Option.map_eq_some'.mp h with ⟨r2, hel, hmap⟩
          have hr2 : r2 = rest := congrArg Prod.snd hmap
          rw [expectLit_eq_some hel, hr2]
          exact ⟨['t', 'r', 'u'], 'e', rfl, by decide⟩
        rw [if_neg h4] at h
        by_cases h5 : c = 'f'
        · rw [if_pos h5] at h
          subst h5
          rcases Option.map_eq_some'.mp h with ⟨r2, hel, hmap⟩
          have hr2 : r2 = rest := congrArg Prod.snd hmap
          rw [expectLit_eq_some hel, hr2]
          exact ⟨['f', 'a', 'l', 's'], 'e', rfl, by decide⟩
        rw [if_neg h5] at h
        by_cases h6 : c = 'n'
        · rw [if_pos h6] at h
          subst h6
          rcases Option.map_eq_some'.mp h with ⟨r2, hel, hmap⟩
          have hr2 : r2 = rest := congrArg Prod.snd hmap
          rw [expectLit_eq_some hel, hr2]
          exact ⟨['n', 'u', 'l'], 'l', rfl, by decide⟩
        rw [if_neg h6] at h
        by_cases h7 : c = 'N'
        · rw [if_pos h7] at h
          subst h7
          rcases Option.map_eq_some'.mp h with ⟨r2, hel, hmap⟩
          have hr2 : r2 = rest := congrArg Prod.snd hmap
          rw [expectLit_eq_some hel, hr2]
          exact ⟨['N', 'a'], 'N', rfl, by decide⟩
        rw [if_neg h7] at h
        by_cases h8 : c = 'I'
        · rw [if_pos h8] at h
          subst h8
          rcases Option.map_eq_some'.mp h with ⟨r2, hel, hmap⟩
          have hr2 : r2 = rest := congrArg Prod.snd hmap
          rw [expectLit_eq_some hel, hr2]
          exact ⟨['I', 'n', 'f', 'i', 'n', 'i', 't'], 'y', rfl, by decide⟩
        rw [if_neg h8] at h
        by_cases h9 : c = '-'
        · rw [if_pos h9] at h
          subst h9
          split at h
          · rename_i r2 hel
            have hr2 : r2 = rest := congrArg Prod.snd (Option.some.inj h)
            rw [expectLit_eq_some hel, hr2]
            exact ⟨['-', 'I', 'n', 'f', 'i', 'n', 'i', 't'], 'y', rfl, by decide⟩
          · rcases Option.map_eq_some'.mp h with ⟨⟨lx, r2⟩, hln, hmap⟩
            have hr2 : r2 = rest := congrArg Prod.snd hmap
            obtain ⟨p, d, hp, hd⟩ := lexNumber_last hln
            exact ⟨p, d, by rw [← hr2, ← hp], digit_not_pyWs hd⟩
        rw [if_neg h9] at h
        by_cases h10 : isDigitC c
        · rw [if_pos h10] at h
          rcases Option.map_eq_some'.mp h with ⟨⟨lx, r2⟩, hln, hmap⟩
          have hr2 : r2 = rest := congrArg Prod.snd hmap
          obtain ⟨p, d, hp, hd⟩ := lexNumber_last hln
          exact ⟨p, d, by rw [← hr2, ← hp], digit_not_pyWs hd⟩
        rw [if_neg h10] at h
        exact absurd h (by simp)
    · -- parseElems
      intro cs xs rest h
      rw [parseElems] at h
      split at h
      · exact absurd h (by simp)
      · rename_i v0 r1 hpv
        obtain ⟨p0, c0, hp0, _⟩ := ihv _ _ _ hpv
        split at h
        · exact absurd h (by simp)
        · rename_i c2 r2 hsw
          by_cases hc2 : c2 = ','
          · rw [if_pos hc2] at h
            subst hc2
            rcases Option.map_eq_some'.mp h with ⟨⟨xs2, r3⟩, hpe, hmap⟩
            have hr3 : r3 = rest := congrArg Prod.snd hmap
            obtain ⟨p2, hp2⟩ := ihe _ _ _ hpe
            refine ⟨p0 ++ c0 :: (r1.takeWhile isJsonWs ++ ',' ::
              (r2.takeWhile isJsonWs ++ p2)), ?_⟩
            conv_lhs => rw [hp0, skipWs_cons_decomp hsw, skipWs_decomp r2, hp2, hr3]
            simp [List.append_assoc]
          rw [if_neg hc2] at h
          by_cases hc3 : c2 = ']'
          · rw [if_pos hc3] at h
            subst hc3
            have hr2 : r2 = rest := congrArg Prod.snd (Option.some.inj h)
            refine ⟨p0 ++ c0 :: r1.takeWhile isJsonWs, ?_⟩
            conv_lhs => rw [hp0, skipWs_cons_decomp hsw, hr2]
            simp [List.append_assoc]
          rw [if_neg hc3] at h
          exact absurd h (by simp)
    · -- parseMembers
      intro cs ms rest h
      cases cs with
      | nil => rw [parseMembers] at h; exact absurd h (by simp)
      | cons c r =>
        rw [parseMembers] at h
        by_cases hq : c = '\"'
        · rw [if_pos hq] at h
          subst hq
          split at h
          · exact absurd h (by simp)
          · rename_i key r1 hps
            obtain ⟨p0, hp0⟩ := parseStringBody_suffix r [] key r1 hps
            split at h
            · exact absurd h (by simp)
            · rename_i c2 r2 hsw1
              by_cases hcolon : c2 = ':'
              · rw [if_pos hcolon] at h
                subst hcolon
                split at h
                · exact absurd h (by simp)
                · rename_i v0 r3 hpv
                  obtain ⟨p1, cv, hp1, _⟩ := ihv _ _ _ hpv
                  split at h
                  · exact absurd h (by simp)
                  · rename_i c4 r4 hsw3
                    by_cases hcomma : c4 = ','
                    · rw [if_pos hcomma] at h
                      subst hcomma
                      rcases Option.map_eq_some'.mp h with ⟨⟨ms2, r5⟩, hpm, hmap⟩
                      have hr5 : r5 = rest := congrArg Prod.snd hmap
                      obtain ⟨p2, hp2⟩ := ihm _ _ _ hpm
                      refine ⟨'\"' :: (p0 ++ '\"' :: (r1.takeWhile isJsonWs ++ ':' ::
                        (r2.takeWhile isJsonWs ++ (p1 ++ cv ::
                          (r3.takeWhile isJsonWs ++ ',' ::
                            (r4.takeWhile isJsonWs ++ p2)))))), ?_⟩
                      conv_lhs => rw [hp0, skipWs_cons_decomp hsw1, skipWs_decomp r2,
                        hp1, skipWs_cons_decomp hsw3, skipWs_decomp r4, hp2, hr5]
                      simp [List.append_assoc]
                    rw [if_neg hcomma] at h
                    by_cases hbrace : c4 = rbrace
                    · rw [if_pos hbrace] at h
                      subst hbrace
                      have hr4 : r4 = rest := congrArg Prod.snd (Option.some.inj h)
                      refine ⟨'\"' :: (p0 ++ '\"' :: (r1.takeWhile isJsonWs ++ ':' ::
                        (r2.takeWhile isJsonWs ++ (p1 ++ cv ::
                          r3.takeWhile isJsonWs)))), ?_⟩
                      conv_lhs => rw [hp0, skipWs_cons_decomp hsw1, skipWs_decomp r2,
                        hp1, skipWs_cons_decomp hsw3, hr4]
                      simp [List.append_assoc]
                    rw [if_neg hbrace] at h
                    exact absurd h (by simp)
              · rw [if_neg hcolon] at h
                exact absurd h (by simp)
        · rw [if_neg hq] at h
          exact absurd h (by simp)

theorem parseValue_ws_head (fuel : Nat) (c : Char) (r : List Char)
    (hc : isPyWs c = true) : parseValue (Nat.succ fuel) (c :: r) = none := by
  have hne : ∀ d : Char, isPyWs d = false → ¬ c = d := by
    intro d hd he
    rw [he, hd] at hc
    exact Bool.noConfusion hc
  have hdig : ¬ isDigitC c = true := by
    intro hdd
    rw [digit_not_pyWs hdd] at hc
    exact Bool.noConfusion hc
  rw [parseValue]
  rw [if_neg (hne lbrace (by decide)), if_neg (hne '[' (by decide)),
    if_neg (hne '\"' (by decide)), if_neg (hne 't' (by decide)),
    if_neg (hne 'f' (by decide)), if_neg (hne 'n' (by decide)),
    if_neg (hne 'N' (by decide)), if_neg (hne 'I' (by decide)),
    if_neg (hne '-' (by decide)), if_neg hdig]

theorem parseValue_head {fuel : Nat} {cs : List Char} {v : Json}
    {rest : List Char} (h : parseValue fuel cs = some (v, rest)) :
    ∃ c r, cs = c :: r ∧ isPyWs c = false := by
  cases fuel with
  | zero => rw [parseValue] at h; exact absurd h (by simp)
  | succ fuel =>
    cases cs with
    | nil => rw [parseValue] at h; exact absurd h (by simp)
    | cons c r =>
      refine ⟨c, r, rfl, ?_⟩
      cases hw : isPyWs c
      · rfl
      · rw [parseValue_ws_head fuel c r hw] at h
        exact absurd h (by simp)

theorem parseValue_btick (fuel : Nat) (r : List Char) :
    parseValue fuel (btick :: r) = none := by
  cases fuel with
  | zero => rw [parseValue]
  | succ fuel =>
    rw [parseValue]
    rw [if_neg (by decide), if_neg (by decide), if_neg (by decide),
      if_neg (by decide), if_neg (by decide), if_neg (by decide),
      if_neg (by decide), if_neg (by decide), if_neg (by decide),
      if_neg (by decide)]

/-- Stripping a predicate from both ends of a padded list recovers the
core when the core starts and ends with characters the predicate
rejects. -/
theorem stripBoth_pad (P : Char → Bool) (a b p m : List Char) (c d : Char)
    (ha : ∀ x ∈ a, P x = true) (hb : ∀ x ∈ b, P x = true)
    (hc : P c = false) (hd : P d = false) (hl : c :: m = p ++ [d]) :
    (((a ++ ((c :: m) ++ b)).dropWhile P).reverse.dropWhile P).reverse
      = c :: m := by
  rw [dropWhile_append_of_all ha]
  have h1 : ((c :: m) ++ b).dropWhile P = (c :: m) ++ b := by
    rw [show ((c :: m) ++ b : List Char) = c :: (m ++ b) from rfl,
      List.dropWhile_cons, if_neg (by simp [hc])]
  rw [h1, List.reverse_append, dropWhile_append_of_all
    (fun x hx => hb x (List.mem_reverse.mp hx))]
  have h2 : (c :: m).reverse.dropWhile P = (c :: m).reverse := by
    rw [hl, List.reverse_append, List.reverse_singleton, List.singleton_append,
      List.dropWhile_cons, if_neg (by simp [hd])]
  rw [h2, List.reverse_reverse]

theorem stripJsonL_decomp (cs : List Char) :
    ∃ a b, cs = a ++ stripJsonL cs ++ b ∧
      (∀ x ∈ a, isJsonWs x = true) ∧ (∀ x ∈ b, isJsonWs x = true) := by
  refine ⟨cs.takeWhile isJsonWs,
    ((cs.dropWhile isJsonWs).reverse.takeWhile isJsonWs).reverse, ?_,
    takeWhile_all_jsonWs cs, ?_⟩
  · conv_lhs => rw [← List.takeWhile_append_dropWhile isJsonWs cs]
    rw [List.append_assoc]
    congr 1
    rw [stripJsonL, ← List.reverse_append, List.takeWhile_append_dropWhile,
      List.reverse_reverse]
  · intro x hx
    exact List.mem_takeWhile_imp (List.mem_reverse.mp hx)

theorem not_jsonWs_of_not_pyWs {c : Char} (h : isPyWs c = false) :
    isJsonWs c = false := by
  cases hj : isJsonWs c
  · rfl
  · rw [jsonWs_pyWs hj] at h
    exact Bool.noConfusion h

/-- `json.loads` is insensitive to Python `str.strip`: a successful parse
still succeeds (with the same value) on the stripped string. -/
theorem jsonParse_pyStrip (s : String) (v : Json) (h : jsonParse s = some v) :
    jsonParse (pyStrip s) = some v := by
  simp only [jsonParse] at h
  split at h
  · rename_i v0 rest heq
    by_cases hr : rest.isEmpty
    · rw [if_pos hr] at h
      have hv0 : v0 = v := Option.some.inj h
      have hrest : rest = [] := by
        cases rest
        · rfl
        · exact absurd hr (by simp)
      subst hv0; subst hrest
      obtain ⟨c, m, hhead, hcpw⟩ := parseValue_head heq
      obtain ⟨p, d, hlast, hdpw⟩ := (parse_consume _).1 _ _ _ heq
      obtain ⟨a, b, hsd, haw, hbw⟩ := stripJsonL_decomp s.data
      have hA : stripJsonL s.data = c :: m := hhead
      have hlast2 : c :: m = p ++ [d] := by rw [← hhead, hlast]
      have hps : pyStripL s.data = c :: m := by
        rw [hsd, hA, List.append_assoc, pyStripL]
        exact stripBoth_pad isPyWs a b p m c d
          (fun x hx => jsonWs_pyWs (haw x hx))
          (fun x hx => jsonWs_pyWs (hbw x hx)) hcpw hdpw hlast2
      have hsj : stripJsonL (pyStripL s.data) = c :: m := by
        rw [hps, stripJsonL]
        have := stripBoth_pad isJsonWs [] [] p m c d
          (by intro x hx; exact absurd hx (List.not_mem_nil x))
          (by intro x hx; exact absurd hx (List.not_mem_nil x))
          (not_jsonWs_of_not_pyWs hcpw) (not_jsonWs_of_not_pyWs hdpw) hlast2
        simpa using this
      simp only [jsonParse, pyStrip, hsj]
      rw [hA] at heq
      rw [heq]
      rfl
    · rw [if_neg hr] at h
      exact absurd h (by simp)
  · exact absurd h (by simp)

theorem stripJsonL_btick_ends (u : List Char) :
    stripJsonL (btick :: (u ++ [btick])) = btick :: (u ++ [btick]) := by
  rw [stripJsonL]
  have hd1 : (btick :: (u ++ [btick])).dropWhile isJsonWs
      = btick :: (u ++ [btick]) := by
    rw [List.dropWhile_cons, if_neg (by decide)]
  rw [hd1]
  have hrev : (btick :: (u ++ [btick])).reverse
      = btick :: (u.reverse ++ [btick]) := by
    rw [List.reverse_cons, List.reverse_append, List.reverse_singleton,
      List.singleton_append, List.cons_append]
  rw [hrev]
  have hd2 : (btick :: (u.reverse ++ [btick])).dropWhile isJsonWs
      = btick :: (u.reverse ++ [btick]) := by
    rw [List.dropWhile_cons, if_neg (by decide)]
  rw [hd2, ← hrev, List.reverse_reverse]

/-- A fenced markdown block never parses directly as JSON: the whole
string begins and ends with a backtick, so the direct strategy fails. -/
theorem jsonParse_fencedWrap (t : String) : jsonParse (fencedWrap t) = none := by
  have hdata : (fencedWrap t).data
      = btick :: ((btick :: btick :: 'j' :: 's' :: 'o' :: 'n' :: '\n'
          :: (t.data ++ ['\n', btick, btick])) ++ [btick]) := by
    rw [fencedWrap_data]
    simp [fenceJsonL, fenceL]
  simp only [jsonParse, hdata, stripJsonL_btick_ends, parseValue_btick]


/-! ## Helper lemmas: outcome builders and `run_phase` -/

theorem successOutcome_success (p : Provider) (role phase : String) (round : Nat)
    (r : LLMRunResult) (hist : List (Nat × String)) :
    (successOutcome p role phase round r hist).success = true := by
  rw [successOutcome]
  split <;> rfl

theorem successOutcome_phase (p : Provider) (role phase : String) (round : Nat)
    (r : LLMRunResult) (hist : List (Nat × String)) :
    (successOutcome p role phase round r hist).phase = phase := by
  rw [successOutcome]
  split <;> rfl

theorem successOutcome_role (p : Provider) (role phase : String) (round : Nat)
    (r : LLMRunResult) (hist : List (Nat × String)) :
    (successOutcome p role phase round r hist).role = role := by
  rw [successOutcome]
  split <;> rfl

theorem run_phase_wellformed (b : BackendBeh) (provider : Provider)
    (role phase topic viewpoint : String) (ctx : PhaseContext)
    (h : phase ∈ PHASE_NAMES) :
    ∃ o : Outcome, run_phase b provider role phase topic viewpoint ctx = .ok o ∧
      o.phase = phase ∧ o.role = role ∧
      (o.success = false →
        o.error.isSome = true ∧ o.error_type.isSome = true ∧
        o.retry_history.isSome = true) := by
  cases hbp : build_prompt phase role topic viewpoint ctx with
  | error e =>
    rw [build_prompt, if_pos h] at hbp
    exact Except.noConfusion hbp
  | ok prompt =>
    rw [run_phase, hbp]
    refine ⟨runPhaseBody b provider role phase ctx.round_num, rfl, ?_⟩
    rw [runPhaseBody]
    split
    · split
      · exact ⟨rfl, rfl, fun _ => ⟨rfl, rfl, rfl⟩⟩
      · split
        · refine ⟨successOutcome_phase _ _ _ _ _ _, successOutcome_role _ _ _ _ _ _, ?_⟩
          intro hx
          rw [successOutcome_success] at hx
          exact Bool.noConfusion hx
        · split
          · exact ⟨rfl, rfl, fun _ => ⟨rfl, rfl, rfl⟩⟩
          · exact ⟨rfl, rfl, fun _ => ⟨rfl, rfl, rfl⟩⟩
    · split
      · refine ⟨successOutcome_phase _ _ _ _ _ _, successOutcome_role _ _ _ _ _ _, ?_⟩
        intro hx
        rw [successOutcome_success] at hx
        exact Bool.noConfusion hx
      · split
        · exact ⟨rfl, rfl, fun _ => ⟨rfl, rfl, rfl⟩⟩
        · exact ⟨rfl, rfl, fun _ => ⟨rfl, rfl, rfl⟩⟩


/-! ## The claims -/

/-- C2 (counterexample): the claimed fatal-pattern precedence fails on an
adversarial message carrying both an auth marker and a rate-limit marker:
the code checks the fallback-eligible groups first, so the message
classifies as `rate_limit`, not `auth`, and a Failure carrying it does
fall back. -/
theorem C2_counterexample :
    classify_error "401 rate limit" = "rate_limit" ∧
    classify_error "401 rate limit" ≠ "auth" ∧
    should_fallback ⟨false, some "401 rate limit", none⟩ = true := by
  decide

/-- C2 (amended): a message containing an auth marker classifies as `auth`
and suppresses fallback provided no fallback-eligible pattern group also
matches (the code's precedence is fallback-eligible groups first, so only
then do the fatal groups decide). -/
theorem C2_auth_no_fallback (msg : String)
    (hauth : containsL (lowerL msg.data) ("401".data) = true ∨
      containsL (lowerL msg.data) ("unauthorized".data) = true ∨
      containsL (lowerL msg.data) ("invalid key".data) = true)
    (hnofb : matchGroup (lowerL msg.data) FALLBACK_ERROR_PATTERNS = none) :
    classify_error msg = "auth" ∧
    should_fallback ⟨false, some msg, none⟩ = false := by
  have hany : (["401", "403", "api key", "authentication", "unauthorized",
      "invalid key"].any (fun p => containsL (lowerL msg.data) p.data)) = true := by
    rcases hauth with h | h | h <;> simp [h]
  have hmg : matchGroup (lowerL msg.data) HARD_FAILURE_PATTERNS = some "auth" := by
    rw [HARD_FAILURE_PATTERNS, matchGroup, if_pos hany]
  have hcl : classify_error msg = "auth" := by
    rw [classify_error, hnofb, hmg]
  refine ⟨hcl, ?_⟩
  rw [should_fallback, if_neg (fun hx => Bool.noConfusion hx)]
  show (if ("" : String) = "timeout" then true
    else fallbackKinds.contains (classify_error msg)) = false
  rw [if_neg (by decide : ¬("" : String) = "timeout"), hcl]
  decide

theorem C2_witness :
    classify_error "401 unauthorized" = "auth" ∧
    should_fallback ⟨false, some "401 unauthorized", none⟩ = false :=
  C2_auth_no_fallback "401 unauthorized" (Or.inl (by decide)) (by decide)

/-- C3: `classify_error` is the spec's case-insensitive first-match
substring classifier: it agrees with the `find?`-based specification
classifier over the ordered groups (fallback-eligible groups before fatal
groups), is insensitive to lowercasing its input, and returns `unknown`
when no pattern of any group occurs in the message. -/
theorem C3_classifier_first_match (msg : String) :
    classify_error msg = classify_spec msg ∧
    classify_error (pyLower msg) = classify_error msg ∧
    ((FALLBACK_ERROR_PATTERNS ++ HARD_FAILURE_PATTERNS).all
        (fun g => g.2.all (fun p => !containsL (lowerL msg.data) p.data)) = true →
      classify_error msg = "unknown") := by
  refine ⟨classify_error_eq_spec msg, classify_error_lower msg, ?_⟩
  intro hall
  rw [classify_error_eq_spec, classify_spec]
  have hfind : (FALLBACK_ERROR_PATTERNS ++ HARD_FAILURE_PATTERNS).find?
      (fun g => g.2.any (fun p => containsL (lowerL msg.data) p.data)) = none := by
    rw [List.find?_eq_none]
    intro g hg
    rw [List.all_eq_true] at hall
    have hga := hall g hg
    rw [List.all_eq_true] at hga
    intro hgany
    rw [List.any_eq_true] at hgany
    obtain ⟨p, hp, hcp⟩ := hgany
    have := hga p hp
    rw [hcp] at this
    exact Bool.noConfusion this
  rw [hfind]
  rfl

theorem C3_witness :
    classify_error "weird failure" = classify_spec "weird failure" ∧
    classify_error (pyLower "weird failure") = classify_error "weird failure" ∧
    classify_error "weird failure" = "unknown" :=
  ⟨(C3_classifier_first_match "weird failure").1,
   (C3_classifier_first_match "weird failure").2.1,
   (C3_classifier_first_match "weird failure").2.2 (by decide)⟩

/-- C10 (counterexample): the claim's clause "false for every Failure whose
message classifies as auth" contradicts the explicit `error_type ==
"timeout"` branch, which the code checks first: a Failure whose message is
an auth error but whose `error_type` field says `timeout` does fall
back. -/
theorem C10_counterexample :
    should_fallback ⟨false, some "401 unauthorized", some "timeout"⟩ = true ∧
    classify_error "401 unauthorized" = "auth" := by
  decide

/-- C10 (amended): `should_fallback` is true exactly on a Failure whose
explicit `error_type` is `timeout` or whose message classifies into the
fallback-eligible kind set; the explicit `timeout` check precedes message
classification, so a fatal-classifying message falls back anyway when the
`error_type` field says `timeout`. -/
theorem C10_should_fallback_iff (r : ResultView) :
    should_fallback r = true ↔
      r.success = false ∧
        (r.error_type.getD "" = "timeout" ∨
          fallbackKinds.contains (classify_error (r.error.getD "")) = true) := by
  rcases r with ⟨s, err, et⟩
  cases s
  · by_cases ht : et.getD "" = "timeout"
    · simp [should_fallback, ht]
    · simp [should_fallback, ht]
  · simp [should_fallback]


/-- C5: `with_retry` is the loop from attempt 1; on attempt `n` failing
retryably with attempts remaining it records the observer callback
`(n, error)`, sleeps `min(base_delay * exponential_base^(n-1), max_delay)`,
and continues from attempt `n+1`; on the final attempt it propagates the
failure with no further delay or callback; a `NonRetryableError` propagates
immediately regardless of attempts remaining. -/
theorem C5_retry_algorithm {α : Type} (f : AttemptFun α) (cfg : RetryConfig)
    (n : Nat) (e : PyExc) :
    (f n = .error e → e.name ≠ "NonRetryableError" → n < cfg.max_attempts →
      withRetryFrom f cfg n =
        ((withRetryFrom f cfg (n + 1)).1,
          (n, e) :: (withRetryFrom f cfg (n + 1)).2.1,
          min (cfg.base_delay * cfg.exponential_base ^ (n - 1)) cfg.max_delay
            :: (withRetryFrom f cfg (n + 1)).2.2.1,
          (withRetryFrom f cfg (n + 1)).2.2.2 + 1)) ∧
    (f n = .error e → e.name ≠ "NonRetryableError" → n = cfg.max_attempts →
      withRetryFrom f cfg n = (.error e, [], [], 1)) ∧
    (f n = .error e → e.name = "NonRetryableError" → n ≤ cfg.max_attempts →
      withRetryFrom f cfg n = (.error e, [], [], 1)) ∧
    with_retry f cfg = withRetryFrom f cfg 1 := by
  refine ⟨?_, ?_, ?_, with_retry_eq_from f cfg⟩
  · intro h hn hlt
    exact withRetryFrom_retry h hn hlt
  · intro h hn hl
    exact withRetryFrom_last h hn hl
  · intro h hn hl
    exact withRetryFrom_nonretryable hl h hn

theorem C5_witness :
    (withRetryFrom (fun _ => (.error ⟨"RuntimeError", "boom"⟩ : Except PyExc Nat))
        RETRY_CONFIG 1 =
      ((withRetryFrom (fun _ => (.error ⟨"RuntimeError", "boom"⟩ : Except PyExc Nat))
          RETRY_CONFIG 2).1,
        (1, ⟨"RuntimeError", "boom"⟩) ::
          (withRetryFrom (fun _ => (.error ⟨"RuntimeError", "boom"⟩ : Except PyExc Nat))
            RETRY_CONFIG 2).2.1,
        min (RETRY_CONFIG.base_delay * RETRY_CONFIG.exponential_base ^ (1 - 1))
            RETRY_CONFIG.max_delay ::
          (withRetryFrom (fun _ => (.error ⟨"RuntimeError", "boom"⟩ : Except PyExc Nat))
            RETRY_CONFIG 2).2.2.1,
        (withRetryFrom (fun _ => (.error ⟨"RuntimeError", "boom"⟩ : Except PyExc Nat))
          RETRY_CONFIG 2).2.2.2 + 1)) ∧
    (withRetryFrom (fun _ => (.error ⟨"RuntimeError", "boom"⟩ : Except PyExc Nat))
        RETRY_CONFIG 3 = (.error ⟨"RuntimeError", "boom"⟩, [], [], 1)) ∧
    (withRetryFrom (fun _ => (.error ⟨"NonRetryableError", "bad"⟩ : Except PyExc Nat))
        RETRY_CONFIG 1 = (.error ⟨"NonRetryableError", "bad"⟩, [], [], 1)) ∧
    with_retry (fun _ => (.error ⟨"RuntimeError", "boom"⟩ : Except PyExc Nat))
        RETRY_CONFIG =
      withRetryFrom (fun _ => (.error ⟨"RuntimeError", "boom"⟩ : Except PyExc Nat))
        RETRY_CONFIG 1 :=
  ⟨(C5_retry_algorithm (fun _ => .error ⟨"RuntimeError", "boom"⟩) RETRY_CONFIG 1
      ⟨"RuntimeError", "boom"⟩).1 rfl (by decide) (by decide),
   (C5_retry_algorithm (fun _ => .error ⟨"RuntimeError", "boom"⟩) RETRY_CONFIG 3
      ⟨"RuntimeError", "boom"⟩).2.1 rfl (by decide) rfl,
   (C5_retry_algorithm (fun _ => .error ⟨"NonRetryableError", "bad"⟩) RETRY_CONFIG 1
      ⟨"NonRetryableError", "bad"⟩).2.2.1 rfl rfl (by decide),
   (C5_retry_algorithm (fun _ => .error ⟨"RuntimeError", "boom"⟩) RETRY_CONFIG 1
      ⟨"RuntimeError", "boom"⟩).2.2.2⟩

/-- C6 (counterexample): with the default policy (3 attempts) and every
attempt failing, the outcome records only the two retried attempts in its
retry history, not the configured max attempts. -/
theorem C6_counterexample :
    ∃ o : Outcome,
      run_phase ⟨fun _ => .error ⟨"RuntimeError", "boom"⟩, none⟩ .CLAUDE "r"
          "round_claim" "t" "v" defaultCtx = .ok o ∧
      o.retry_history = some [(1, "boom"), (2, "boom")] ∧
      (o.retry_history.getD []).length ≠ RETRY_CONFIG.max_attempts := by
  refine ⟨_, rfl, rfl, by decide⟩

/-- C6 (amended): with base delay 1.0, exponential base 2.0 and max delay
30.0, when every attempt fails the loop executes exactly the configured max
attempts, observes the delays `min(2^(n-1), 30)` — 1.0, 2.0, 4.0, capped at
30.0 from attempt 6 on — before retries 1 .. max-1, and the final outcome's
retry history records those max-1 retried attempts. -/
theorem C6_retry_timing (M : Nat) (f : AttemptFun LLMRunResult) (e : PyExc)
    (hM : 1 ≤ M) (hf : ∀ k, f k = .error e)
    (hnr : e.name ≠ "NonRetryableError") :
    with_retry f ⟨M, 1, 30, 2⟩ =
      (.error e, (List.range' 1 (M - 1)).map (fun k => (k, e)),
        (List.range' 1 (M - 1)).map (retryDelay ⟨M, 1, 30, 2⟩), M) ∧
    ((List.range' 1 (M - 1)).map (fun k => (k, e))).length = M - 1 ∧
    retryDelay ⟨M, 1, 30, 2⟩ 1 = 1 ∧
    retryDelay ⟨M, 1, 30, 2⟩ 2 = 2 ∧
    retryDelay ⟨M, 1, 30, 2⟩ 3 = 4 ∧
    (∀ n : Nat, 6 ≤ n → retryDelay ⟨M, 1, 30, 2⟩ n = 30) ∧
    (e.name ≠ "TimeoutError" →
      run_phase ⟨f, none⟩ .CLAUDE "r" "round_claim" "t" "v" defaultCtx =
        .ok (failureOutcome .CLAUDE "r" "round_claim" 1 e
          ((List.range' 1 (RETRY_CONFIG.max_attempts - 1)).map
            (fun k => (k, e.msg))))) := by
  refine ⟨?_, by simp, ?_, ?_, ?_, ?_, ?_⟩
  · exact with_retry_all_fail f ⟨M, 1, 30, 2⟩ (fun _ => e) hf (fun _ => hnr) hM
  · norm_num [retryDelay, min_def]
  · norm_num [retryDelay, min_def]
  · norm_num [retryDelay, min_def]
  · intro n hn
    rw [retryDelay]
    have h2 : (30 : ℚ) ≤ (⟨M, 1, 30, 2⟩ : RetryConfig).base_delay *
        (⟨M, 1, 30, 2⟩ : RetryConfig).exponential_base ^ (n - 1) := by
      show (30 : ℚ) ≤ 1 * 2 ^ (n - 1)
      rw [one_mul]
      calc (30 : ℚ) ≤ 2 ^ 5 := by norm_num
      _ ≤ 2 ^ (n - 1) := pow_le_pow_right₀ (by norm_num) (by omega)
    exact min_eq_right h2
  · intro hname
    have hwr := with_retry_all_fail f RETRY_CONFIG (fun _ => e) hf (fun _ => hnr)
      (by decide)
    have hstep : run_phase ⟨f, none⟩ .CLAUDE "r" "round_claim" "t" "v" defaultCtx
        = .ok (runPhaseBody ⟨f, none⟩ .CLAUDE "r" "round_claim" 1) := rfl
    rw [hstep]
    simp only [runPhaseBody, hwr, hname, List.map_map, if_false]
    rfl

theorem C6_witness :
    with_retry (fun _ => (.error ⟨"RuntimeError", "boom"⟩ : Except PyExc LLMRunResult))
        ⟨4, 1, 30, 2⟩ =
      (.error ⟨"RuntimeError", "boom"⟩,
        (List.range' 1 (4 - 1)).map
          (fun k => (k, (⟨"RuntimeError", "boom"⟩ : PyExc))),
        (List.range' 1 (4 - 1)).map (retryDelay ⟨4, 1, 30, 2⟩), 4) ∧
    ((List.range' 1 (4 - 1)).map
        (fun k => (k, (⟨"RuntimeError", "boom"⟩ : PyExc)))).length = 4 - 1 ∧
    retryDelay ⟨4, 1, 30, 2⟩ 1 = 1 ∧
    retryDelay ⟨4, 1, 30, 2⟩ 2 = 2 ∧
    retryDelay ⟨4, 1, 30, 2⟩ 3 = 4 ∧
    retryDelay ⟨4, 1, 30, 2⟩ 6 = 30 ∧
    run_phase ⟨fun _ => .error ⟨"RuntimeError", "boom"⟩, none⟩ .CLAUDE "r"
        "round_claim" "t" "v" defaultCtx =
      .ok (failureOutcome .CLAUDE "r" "round_claim" 1 ⟨"RuntimeError", "boom"⟩
        ((List.range' 1 (RETRY_CONFIG.max_attempts - 1)).map
          (fun k => (k, "boom")))) := by
  have h := C6_retry_timing 4 (fun _ => .error ⟨"RuntimeError", "boom"⟩)
    ⟨"RuntimeError", "boom"⟩ (by decide) (fun _ => rfl) (by decide)
  exact ⟨h.1, h.2.1, h.2.2.1, h.2.2.2.1, h.2.2.2.2.1,
    h.2.2.2.2.2.1 6 (by decide), h.2.2.2.2.2.2 (by decide)⟩

/-- C7 (counterexample): the fenced half of the round-trip fails when the
well-formed text itself contains a backtick fence: the extraction stage
cuts the document at the inner fence, so no strategy recovers the original
structure. -/
theorem C7_counterexample :
    jsonParse "\"a```b\"" = some (Json.str "a```b") ∧
    robust_json_parse "\"a```b\"" = .parsed (Json.str "a```b") "direct" ∧
    robust_json_parse (fencedWrap "\"a```b\"") =
      .failed (fencedWrap "\"a```b\"") (some (jsonDecodeError "\"a"))
        strategyNames ∧
    robust_json_parse (fencedWrap "\"a```b\"") ≠
      .parsed (Json.str "a```b") "extract_block" := by
  refine ⟨rfl, rfl, rfl, ?_⟩
  intro h
  exact ParseOutcome.noConfusion h

/-- C7 (amended): a well-formed document normalises to its parse with
strategy `direct`; wrapped in a ```json fence it normalises to the same
parse with strategy `extract_block`, provided the document itself contains
no backtick fence. -/
theorem C7_round_trip (t : String) (v : Json) (hv : jsonParse t = some v)
    (hfence : containsL t.data fenceL = false) :
    robust_json_parse t = .parsed v "direct" ∧
    robust_json_parse (fencedWrap t) = .parsed v "extract_block" := by
  constructor
  · have h1 : applyStrategy "direct" t = t := rfl
    simp only [robust_json_parse, strategyNames, robustGo, h1, hv]
  · have h1 : applyStrategy "direct" (fencedWrap t) = fencedWrap t := rfl
    have h2 : applyStrategy "extract_block" (fencedWrap t)
        = extract_json_block (fencedWrap t) := rfl
    simp only [robust_json_parse, strategyNames, robustGo, h1, h2,
      jsonParse_fencedWrap, extract_json_block_wrap t hfence,
      jsonParse_pyStrip t v hv]

theorem C7_witness :
    robust_json_parse "[1]" = .parsed (Json.arr [Json.num "1"]) "direct" ∧
    robust_json_parse (fencedWrap "[1]") =
      .parsed (Json.arr [Json.num "1"]) "extract_block" :=
  C7_round_trip "[1]" (Json.arr [Json.num "1"]) rfl (by decide)

/-- C8: `robust_json_parse` is total and returns exactly one payload: the
parse of the first strategy (in order direct, extract_block, fix_commas,
fix_keys) whose candidate parses, or — when all four fail — the wrapper
holding the original text, the last parse error and the ordered strategy
list; and on the success path of `run_phase` a normalisation failure never
flips the success flag: the payload degrades to the raw text with a
warning. -/
theorem C8_normalisation_total (text : String) :
    ((∃ v, jsonParse text = some v ∧
        robust_json_parse text = .parsed v "direct") ∨
      (jsonParse text = none ∧ ∃ v,
        jsonParse (extract_json_block text) = some v ∧
        robust_json_parse text = .parsed v "extract_block") ∨
      (jsonParse text = none ∧ jsonParse (extract_json_block text) = none ∧
        ∃ v,
        jsonParse (fix_trailing_commas (extract_json_block text)) = some v ∧
        robust_json_parse text = .parsed v "fix_commas") ∨
      (jsonParse text = none ∧ jsonParse (extract_json_block text) = none ∧
        jsonParse (fix_trailing_commas (extract_json_block text)) = none ∧
        ∃ v,
        jsonParse (fix_unquoted_keys (fix_trailing_commas
          (extract_json_block text))) = some v ∧
        robust_json_parse text = .parsed v "fix_keys") ∨
      (jsonParse text = none ∧ jsonParse (extract_json_block text) = none ∧
        jsonParse (fix_trailing_commas (extract_json_block text)) = none ∧
        jsonParse (fix_unquoted_keys (fix_trailing_commas
          (extract_json_block text))) = none ∧
        robust_json_parse text = .failed text
          (some (jsonDecodeError (fix_unquoted_keys (fix_trailing_commas
            (extract_json_block text)))))
          strategyNames)) ∧
    (∀ (p : Provider) (role phase : String) (round : Nat) (r : LLMRunResult)
        (hist : List (Nat × String)),
      (successOutcome p role phase round r hist).success = true ∧
      (∀ raw perr tried,
        robust_json_parse (pyStrip r.text) = .failed raw perr tried →
          (successOutcome p role phase round r hist).result
            = some (.rawResponse raw) ∧
          (successOutcome p role phase round r hist).warning
            = some "JSON parsing failed after all recovery attempts")) := by
  have ha1 : applyStrategy "direct" text = text := rfl
  have ha2 : applyStrategy "extract_block" text = extract_json_block text := rfl
  have ha3 : applyStrategy "fix_commas" text
      = fix_trailing_commas (extract_json_block text) := rfl
  have ha4 : applyStrategy "fix_keys" text
      = fix_unquoted_keys (fix_trailing_commas (extract_json_block text)) := rfl
  constructor
  · cases h1 : jsonParse text with
    | some v =>
      refine Or.inl ⟨v, rfl, ?_⟩
      simp only [robust_json_parse, strategyNames, robustGo, ha1, h1]
    | none =>
      cases h2 : jsonParse (extract_json_block text) with
      | some v =>
        refine Or.inr (Or.inl ⟨rfl, v, rfl, ?_⟩)
        simp only [robust_json_parse, strategyNames, robustGo, ha1, ha2, h1, h2]
      | none =>
        cases h3 : jsonParse (fix_trailing_commas (extract_json_block text)) with
        | some v =>
          refine Or.inr (Or.inr (Or.inl ⟨rfl, rfl, v, rfl, ?_⟩))
          simp only [robust_json_parse, strategyNames, robustGo, ha1, ha2, ha3,
            h1, h2, h3]
        | none =>
          cases h4 : jsonParse (fix_unquoted_keys (fix_trailing_commas
              (extract_json_block text))) with
          | some v =>
            refine Or.inr (Or.inr (Or.inr (Or.inl ⟨rfl, rfl, rfl, v, rfl, ?_⟩)))
            simp only [robust_json_parse, strategyNames, robustGo, ha1, ha2, ha3,
              ha4, h1, h2, h3, h4]
          | none =>
            refine Or.inr (Or.inr (Or.inr (Or.inr ⟨rfl, rfl, rfl, rfl, ?_⟩)))
            simp only [robust_json_parse, strategyNames, robustGo, ha1, ha2, ha3,
              ha4, h1, h2, h3, h4]
  · intro p role phase round r hist
    refine ⟨successOutcome_success p role phase round r hist, ?_⟩
    intro raw perr tried hf
    constructor
    · simp only [successOutcome, hf]
    · simp only [successOutcome, hf]

theorem C8_witness :
    ((∃ v, jsonParse "nope" = some v ∧
        robust_json_parse "nope" = .parsed v "direct") ∨
      (jsonParse "nope" = none ∧ ∃ v,
        jsonParse (extract_json_block "nope") = some v ∧
        robust_json_parse "nope" = .parsed v "extract_block") ∨
      (jsonParse "nope" = none ∧ jsonParse (extract_json_block "nope") = none ∧
        ∃ v,
        jsonParse (fix_trailing_commas (extract_json_block "nope")) = some v ∧
        robust_json_parse "nope" = .parsed v "fix_commas") ∨
      (jsonParse "nope" = none ∧ jsonParse (extract_json_block "nope") = none ∧
        jsonParse (fix_trailing_commas (extract_json_block "nope")) = none ∧
        ∃ v,
        jsonParse (fix_unquoted_keys (fix_trailing_commas
          (extract_json_block "nope"))) = some v ∧
        robust_json_parse "nope" = .parsed v "fix_keys") ∨
      (jsonParse "nope" = none ∧ jsonParse (extract_json_block "nope") = none ∧
        jsonParse (fix_trailing_commas (extract_json_block "nope")) = none ∧
        jsonParse (fix_unquoted_keys (fix_trailing_commas
          (extract_json_block "nope"))) = none ∧
        robust_json_parse "nope" = .failed "nope"
          (some (jsonDecodeError (fix_unquoted_keys (fix_trailing_commas
            (extract_json_block "nope")))))
          strategyNames)) ∧
    (∀ (p : Provider) (role phase : String) (round : Nat) (r : LLMRunResult)
        (hist : List (Nat × String)),
      (successOutcome p role phase round r hist).success = true ∧
      (∀ raw perr tried,
        robust_json_parse (pyStrip r.text) = .failed raw perr tried →
          (successOutcome p role phase round r hist).result
            = some (.rawResponse raw) ∧
          (successOutcome p role phase round r hist).warning
            = some "JSON parsing failed after all recovery attempts")) :=
  C8_normalisation_total "nope"

/-- C9: the health probe reports the trusted backend `claude` available
without consulting the environment or the canary; any other known backend
with no truthy credential variable is reported unavailable with kind
`auth` (no canary call); and a canary call that raises `TimeoutError`
yields unavailable with kind `timeout`. -/
theorem C9_health_probe (h : HealthEnv) (timeout : ℚ) :
    test_provider_availability h "claude" timeout
      = ⟨"claude", true, none, none⟩ ∧
    (∀ name p, providerMapGet name = some p → name ≠ "claude" →
      (validate_api_keys h.env name).valid = false →
      test_provider_availability h name timeout
        = ⟨name, false, (validate_api_keys h.env name).error, some "auth"⟩) ∧
    (∀ name p e, providerMapGet name = some p → name ≠ "claude" →
      (validate_api_keys h.env name).valid = true →
      h.canary p = .error e → e.name = "TimeoutError" →
      test_provider_availability h name timeout
        = ⟨name, false,
            some ("Health check timed out after " ++ pyFloatStr timeout ++ "s"),
            some "timeout"⟩) := by
  refine ⟨rfl, ?_, ?_⟩
  · intro name p hmap hnc hvalid
    simp only [test_provider_availability, if_neg hnc, hmap]
    rw [if_pos (by rw [hvalid]; rfl)]
  · intro name p e hmap hnc hvalid hc hname
    simp only [test_provider_availability, if_neg hnc, hmap, hc, hvalid,
      Bool.not_true, Bool.false_eq_true, if_false]
    rw [if_pos hname]

theorem C9_witness :
    test_provider_availability ⟨fun _ => none, fun _ => .error ⟨"TimeoutError", ""⟩⟩
        "claude" 15
      = ⟨"claude", true, none, none⟩ ∧
    test_provider_availability ⟨fun _ => none, fun _ => .error ⟨"TimeoutError", ""⟩⟩
        "gemini" 15
      = ⟨"gemini", false,
          (validate_api_keys (fun _ => none) "gemini").error, some "auth"⟩ ∧
    test_provider_availability
        ⟨fun v => if v = "GOOGLE_API_KEY" then some "k" else none,
          fun _ => .error ⟨"TimeoutError", "late"⟩⟩ "gemini" 15
      = ⟨"gemini", false,
          some ("Health check timed out after " ++ pyFloatStr 15 ++ "s"),
          some "timeout"⟩ :=
  ⟨(C9_health_probe ⟨fun _ => none, fun _ => .error ⟨"TimeoutError", ""⟩⟩ 15).1,
   (C9_health_probe ⟨fun _ => none, fun _ => .error ⟨"TimeoutError", ""⟩⟩ 15).2.1
     "gemini" .GEMINI rfl (by decide) rfl,
   (C9_health_probe
       ⟨fun v => if v = "GOOGLE_API_KEY" then some "k" else none,
         fun _ => .error ⟨"TimeoutError", "late"⟩⟩ 15).2.2
     "gemini" .GEMINI ⟨"TimeoutError", "late"⟩ rfl (by decide) rfl rfl rfl⟩

/-- C4: when the primary run fails with a fallback-eligible outcome,
fallback is enabled and the configured fallback backend is distinct from
the primary, `run_phase_with_fallback` re-runs the phase exactly once on
the fallback backend and returns that second outcome — Success or Failure
alike — with exactly one `FallbackEvent` attached; no further fallback is
attempted. -/
theorem C4_single_fallback (env : Provider → BackendBeh) (provider fp : Provider)
    (role phase topic viewpoint : String) (ctx : PhaseContext) (o1 o2 : Outcome)
    (h1 : run_phase (env provider) provider role phase topic viewpoint ctx = .ok o1)
    (hfail : o1.success = false)
    (hsf : should_fallback o1.view = true)
    (hmap : providerMapGet FALLBACK_CONFIG.fallback_provider = some fp)
    (hne : fp ≠ provider)
    (h2 : run_phase (env fp) fp role phase topic viewpoint ctx = .ok o2) :
    run_phase_with_fallback env provider role phase topic viewpoint
        FALLBACK_CONFIG ctx
      = .ok { o2 with
              fallback_used := true
              original_provider := some provider.value
              fallback_history := [⟨phase, provider.value,
                FALLBACK_CONFIG.fallback_provider,
                classify_error (o1.error.getD ""), o1.error.getD ""⟩] } := by
  simp only [run_phase_with_fallback, h1]
  rw [if_pos ⟨by rw [hfail]; rfl, rfl, hsf⟩]
  simp only [hmap]
  rw [if_pos hne]
  simp only [h2]

theorem C4_witness :
    run_phase_with_fallback envGeminiDown .GEMINI "r" "round_claim" "t" "v"
        FALLBACK_CONFIG defaultCtx
      = .ok { successOutcome .CLAUDE "r" "round_claim" 1
                ⟨true, "[1]", "sess", none⟩ [] with
              fallback_used := true
              original_provider := some "gemini"
              fallback_history := [⟨"round_claim", "gemini", "claude",
                "service_unavailable", "503 service unavailable"⟩] } :=
  C4_single_fallback envGeminiDown .GEMINI .CLAUDE "r" "round_claim" "t" "v"
    defaultCtx
    (failureOutcome .GEMINI "r" "round_claim" 1
      ⟨"RuntimeError", "503 service unavailable"⟩
      [(1, "503 service unavailable"), (2, "503 service unavailable")])
    (successOutcome .CLAUDE "r" "round_claim" 1 ⟨true, "[1]", "sess", none⟩ [])
    rfl rfl rfl rfl (by decide) rfl

/-- C1 (counterexample): an unrecognised phase identifier does not
terminate in an Invocation Outcome: the `ValueError` raised by
`build_prompt` escapes `run_phase` (and its fallback wrapper) to the
caller. -/
theorem C1_counterexample :
    run_phase okBeh .CLAUDE "r" "bogus" "t" "v" defaultCtx
      = .error ("Unknown phase: bogus") ∧
    run_phase_with_fallback (fun _ => okBeh) .CLAUDE "r" "bogus" "t" "v"
        FALLBACK_CONFIG defaultCtx
      = .error ("Unknown phase: bogus") :=
  ⟨rfl, rfl⟩

/-- C1 (amended): for a recognised phase name the invoke operation never
raises — it terminates in a well-formed outcome that preserves the phase
and role and, on failure, always carries an error message, an error type
and the retry history; for an unrecognised phase name the `ValueError`
from `build_prompt` propagates to the caller instead. -/
theorem C1_invoke_totality (env : Provider → BackendBeh) (provider : Provider)
    (role phase topic viewpoint : String) (cfg : FallbackConfig)
    (ctx : PhaseContext) :
    (phase ∈ PHASE_NAMES →
      ∃ o : Outcome,
        run_phase_with_fallback env provider role phase topic viewpoint cfg ctx
          = .ok o ∧
        o.phase = phase ∧ o.role = role ∧
        (o.success = false →
          o.error.isSome = true ∧ o.error_type.isSome = true ∧
          o.retry_history.isSome = true)) ∧
    (phase ∉ PHASE_NAMES →
      run_phase_with_fallback env provider role phase topic viewpoint cfg ctx
        = .error ("Unknown phase: " ++ phase)) := by
  constructor
  · intro h
    obtain ⟨o1, h1, hph1, hro1, hwf1⟩ :=
      run_phase_wellformed (env provider) provider role phase topic viewpoint ctx h
    simp only [run_phase_with_fallback, h1]
    by_cases hcond : ((!o1.success) = true ∧ cfg.enabled = true ∧
        should_fallback o1.view = true)
    · rw [if_pos hcond]
      split
      · rename_i fp hm
        by_cases hfp : fp = provider
        · rw [if_neg (fun hn => hn hfp)]
          exact ⟨o1, rfl, hph1, hro1, hwf1⟩
        · rw [if_pos hfp]
          obtain ⟨o2, h2, hph2, hro2, hwf2⟩ :=
            run_phase_wellformed (env fp) fp role phase topic viewpoint ctx h
          simp only [h2]
          exact ⟨_, rfl, hph2, hro2, hwf2⟩
      · exact ⟨o1, rfl, hph1, hro1, hwf1⟩
    · rw [if_neg hcond]
      exact ⟨o1, rfl, hph1, hro1, hwf1⟩
  · intro h
    have hbp : build_prompt phase role topic viewpoint ctx
        = .error ("Unknown phase: " ++ phase) := by
      rw [build_prompt, if_neg h]
    simp only [run_phase_with_fallback, run_phase, hbp]

theorem C1_witness :
    (∃ o : Outcome,
      run_phase_with_fallback (fun _ => okBeh) .CLAUDE "r" "initial_research"
          "t" "v" FALLBACK_CONFIG defaultCtx
        = .ok o ∧
      o.phase = "initial_research" ∧ o.role = "r" ∧
      (o.success = false →
        o.error.isSome = true ∧ o.error_type.isSome = true ∧
        o.retry_history.isSome = true)) ∧
    run_phase_with_fallback (fun _ => okBeh) .CLAUDE "r" "not_a_phase" "t" "v"
        FALLBACK_CONFIG defaultCtx
      = .error ("Unknown phase: " ++ "not_a_phase") :=
  ⟨(C1_invoke_totality (fun _ => okBeh) .CLAUDE "r" "initial_research" "t" "v"
      FALLBACK_CONFIG defaultCtx).1 (by decide),
   (C1_invoke_totality (fun _ => okBeh) .CLAUDE "r" "not_a_phase" "t" "v"
      FALLBACK_CONFIG defaultCtx).2 (by decide)⟩

end Debater
